import Mathlib

/-!
SetupLauncher (edkrepo_installer/SetupLauncher/SetupLauncher.cpp)

A shallow embedding of the bootstrapper that installs the .NET runtime when it
is missing and then launches the EdkRepo installer.

The program talks to Windows all the time.  Every Win32 call whose result the
program inspects, or whose effect a user can observe, is recorded as an
`Event` together with the value Windows returned.  The operating system is an
arbitrary deterministic function `OS` from the history of events so far to the
next answer, so a statement quantified over `OS` covers every behaviour of
the allocator, of the file system, of the launched installers and of the user
in front of the dialogs.  Calls that return nothing the program looks at and
show nothing (`HeapFree`, `LocalFree`, `CloseHandle`, `FindClose`,
`WaitForSingleObject`, `InitCommonControls`, `memset`) are not recorded.

Functions take the history `h` and return the extended history (explicit state
passing).  C strings are Lean strings (the characters before the terminator).
-/

namespace SetupLauncher

/-! ## Platform and Win32 constants -/

/-- The two Windows targets the launcher is built for. -/
inductive Platform
  | x86
  | x64
  deriving DecidableEq, Repr

/-- Value of `sizeof (LPTSTR)` in bytes. -/
def Platform.sizeofPointer : Platform → Nat
  | .x86 => 4
  | .x64 => 8

/-- Width of `SIZE_T` in bits. -/
def Platform.sizeBits : Platform → Nat
  | .x86 => 32
  | .x64 => 64

/-- Value of `sizeof (TCHAR)`: the file hands `_T` literals to `wcscmp` and `LPTSTR` to
`LPWSTR` parameters, so it only builds with UNICODE, where `TCHAR` is `WCHAR`. -/
def sizeofTCHAR : Nat := 2

/-- Width of a `DWORD`. -/
def DWORD_MOD : Nat := 2 ^ 32

def BUFFER_SIZE : Nat := 2000

/-! The constants below come from the Windows SDK headers the file includes. -/

def MAX_PATH : Nat := 260
def NULL : Nat := 0
def ERROR_SUCCESS : Nat := 0
def INVALID_FILE_ATTRIBUTES : Nat := 0xFFFFFFFF
def FILE_ATTRIBUTE_DIRECTORY : Nat := 0x10
def MB_OK : Nat := 0x0
def MB_YESNO : Nat := 0x4
def MB_ICONERROR : Nat := 0x10
def MB_ICONQUESTION : Nat := 0x20
def MB_ICONWARNING : Nat := 0x30
def MB_ICONINFORMATION : Nat := 0x40
def IDYES : Nat := 6

/-- A value stored in a `DWORD`. -/
def dword (n : Nat) : Nat := n % DWORD_MOD

def DotNetInstallerFileName : String := "NDP452-KB2901954-Web.exe"
def EdkRepoInstallerFileName : String := "EdkRepoInstaller.exe"

/-! ## Events and the operating system -/

/-- Functions of the file whose entry is marked in the history. -/
inductive Fn
  | RunDotNetInstaller
  | RunEdkRepoInstaller
  | RebootSystem
  deriving DecidableEq, Repr

/-- One call made by the program, with its arguments and the answer it got; `call f`
marks the entry of the function `f` of the file. -/
inductive Event
  | AttachConsole (ok : Bool)
  | GetStdHandle (handle : Nat)
  | WriteConsole (handle : Nat) (chars : List Char)
  | MessageBox (text caption : String) (uType : Nat) (answer : Nat)
  | GetLastError (error : Nat)
  | FormatMessage (error : Nat) (message : Option String)
  | HeapAlloc (bytes : Nat) (ok : Bool)
  | GetModuleFileName (nSize : Nat) (result : Nat) (text : String)
  | GetFileAttributes (path : String) (attributes : Nat)
  | FindFirstFile (path : String) (found : Bool)
  | ShellExecuteEx (file parameters : String) (ok : Bool)
  | GetExitCodeProcess (code : Option Nat)
  | OpenProcessToken (ok : Bool)
  | LookupPrivilegeValue (ok : Bool)
  | AdjustTokenPrivileges (ok : Bool)
  | ExitWindowsEx (ok : Bool)
  | IsNetfx452Installed (result : Bool)
  | CheckNetfxVersionUsingMscoree (result : Bool)
  | call (f : Fn)
  deriving DecidableEq, Repr

abbrev History := List Event

/-- The world outside the program: each field answers one kind of call from
the history so far (and the call's arguments).  `IsNetfx452Installed` and
`CheckNetfxVersionUsingMscoree` are declared in the file and defined
elsewhere; they are answered by the environment as well. -/
structure OS where
  platform : Platform
  /-- Contents of the memory that follows the terminator of a string literal. -/
  memoryAfter : String → Nat → Char
  /-- Indeterminate initial value of an uninitialised `DWORD` local. -/
  indeterminate : History → Nat
  AttachConsole : History → Bool
  GetStdHandle : History → Nat
  MessageBox : History → String → String → Nat → Nat
  GetLastError : History → Nat
  FormatMessage : History → Nat → Option String
  HeapAlloc : History → Nat → Bool
  GetModuleFileName : History → Nat → Nat × String
  GetFileAttributes : History → String → Nat
  FindFirstFile : History → String → Bool
  ShellExecuteEx : History → String → String → Bool
  GetExitCodeProcess : History → Option Nat
  OpenProcessToken : History → Bool
  LookupPrivilegeValue : History → Bool
  AdjustTokenPrivileges : History → Bool
  ExitWindowsEx : History → Bool
  IsNetfx452Installed : History → Bool
  CheckNetfxVersionUsingMscoree : History → Bool

/-- The `n` characters found at the address of the C string `s`: its
characters, the terminator, then whatever follows it in memory. -/
def readTChars (os : OS) (s : String) (n : Nat) : List Char :=
  (s.data ++ Char.ofNat 0 :: (List.range (n - (s.length + 1))).map (os.memoryAfter s)).take n

/-- Upper-case hexadecimal digits of `n`, as printed by `%X`. -/
def hexUpper (n : Nat) : String :=
  String.mk ((Nat.toDigits 16 n).map Char.toUpper)

/-- Result of `_sntprintf_s (Buffer, BUFFER_SIZE, _TRUNCATE, ...)`: the formatted text cut
to fit the buffer with its terminator. -/
def truncateToBuffer (s : String) : String :=
  String.mk (s.data.take (BUFFER_SIZE - 1))

/-! ## Notification helpers -/

def DisplayErrorMessage (os : OS) (g_SilentMode : Bool) (h : History)
    (ErrorMessage : String) : History :=
  let NewLine : String := "\r\n"
  if g_SilentMode then
    let StdOut := os.GetStdHandle h
    let h := h ++ [Event.GetStdHandle StdOut]
    if StdOut ≠ NULL then
      let StringLength := dword ErrorMessage.length
      let h := h ++ [Event.WriteConsole StdOut (readTChars os ErrorMessage StringLength)]
      h ++ [Event.WriteConsole StdOut
              (readTChars os NewLine (os.platform.sizeofPointer / sizeofTCHAR))]
    else h
  else
    h ++ [Event.MessageBox ErrorMessage "Fatal Error" (MB_OK ||| MB_ICONERROR)
            (os.MessageBox h ErrorMessage "Fatal Error" (MB_OK ||| MB_ICONERROR))]

def DisplayWin32Error (os : OS) (g_SilentMode : Bool) (h : History)
    (FunctionName : String) (Error : Nat) : History :=
  let Message := os.FormatMessage h Error
  let h := h ++ [Event.FormatMessage Error Message]
  match Message with
  | some Message =>
    DisplayErrorMessage os g_SilentMode h
      (truncateToBuffer (FunctionName ++ " failed with error: " ++ Message))
  | none =>
    DisplayErrorMessage os g_SilentMode h
      (truncateToBuffer (FunctionName ++ " failed with error code: 0x" ++ hexUpper Error))

def DisplayLastWin32Error (os : OS) (g_SilentMode : Bool) (h : History)
    (FunctionName : String) : History :=
  let Error := dword (os.GetLastError h)
  DisplayWin32Error os g_SilentMode (h ++ [Event.GetLastError Error]) FunctionName Error

/-! ## Path helpers -/

/-- A heap block holding a C string: its capacity in characters and its text. -/
structure Buffer where
  capacity : Nat
  text : String
  deriving DecidableEq, Repr

/-- Iterations of the `while` loop of `GetModulePath`.  `none` means the fuel ran
out; the inner option is the returned pointer (`none` for `NULL`). -/
def GetModulePath.loop (os : OS) (g_SilentMode : Bool) :
    Nat → History → Option Buffer → Nat → Nat → Option (Option Buffer × History)
  | 0, _, _, _, _ => none
  | fuel + 1, h, ExePath, ExePathCapacity, ExePathSize =>
    if ExePathSize ≥ ExePathCapacity then
      let ExePathCapacity :=
        if ExePath.isSome then (15 * ExePathCapacity) % 2 ^ os.platform.sizeBits / 10
        else ExePathCapacity
      if ExePath.isSome ∧ ExePathCapacity ≥ 0x6400000 then
        some (none, h)
      else
        let bytes := (sizeofTCHAR * ExePathCapacity) % 2 ^ os.platform.sizeBits
        let ok := os.HeapAlloc h bytes
        let h := h ++ [Event.HeapAlloc bytes ok]
        if ok = false then
          some (none, h)
        else
          let nSize := dword ExePathCapacity
          let answer := os.GetModuleFileName h nSize
          let ExePathSize := dword answer.1
          let h := h ++ [Event.GetModuleFileName nSize ExePathSize answer.2]
          if ExePathSize = 0 then
            some (none, DisplayLastWin32Error os g_SilentMode h "GetModuleFileName")
          else
            GetModulePath.loop os g_SilentMode fuel h (some ⟨ExePathCapacity, answer.2⟩)
              ExePathCapacity ExePathSize
    else
      some (ExePath, h)

/-- Fuel handed to the loop by the callers: more than the 33 iterations the loop can
make. -/
def GetModulePath.fuel : Nat := 64

def GetModulePath (os : OS) (g_SilentMode : Bool) (h : History) :
    Option (Option Buffer × History) :=
  GetModulePath.loop os g_SilentMode GetModulePath.fuel h none (MAX_PATH + 1)
    (dword (MAX_PATH + 1))

/-- Effect of `*_tcsrchr (Path, c) = 0`: the text is cut at the last `c`, if there is one. -/
def cutAtLast (c : Char) (Path : String) : String :=
  if c ∈ Path.data then
    String.mk (((Path.data.reverse.dropWhile (fun x => x ≠ c)).drop 1).reverse)
  else Path

def backslash : Char := Char.ofNat 92

def GetDirectoryName (os : OS) (h : History) (Path : String) : Bool × String × History :=
  let Path := cutAtLast backslash Path
  let FileAttributes := dword (os.GetFileAttributes h Path)
  let h := h ++ [Event.GetFileAttributes Path FileAttributes]
  if FileAttributes = INVALID_FILE_ATTRIBUTES then
    (false, Path, h)
  else if FileAttributes &&& FILE_ATTRIBUTE_DIRECTORY = 0 then
    let Path := cutAtLast backslash Path
    let FileAttributes := dword (os.GetFileAttributes h Path)
    let h := h ++ [Event.GetFileAttributes Path FileAttributes]
    if FileAttributes = INVALID_FILE_ATTRIBUTES then
      (false, Path, h)
    else if FileAttributes &&& FILE_ATTRIBUTE_DIRECTORY = 0 then
      (false, Path, h)
    else
      (true, Path, h)
  else
    (true, Path, h)

/-- The combined path, `none` for `NULL`.  With an empty `Path1` the C code reads the
character before the buffer; the model then takes the branch that adds the separator. -/
def CombinePaths (os : OS) (h : History) (Path1 Path2 : String) : Option String × History :=
  let CombinedPathSize := (Path1.length + Path2.length + 2) % 2 ^ os.platform.sizeBits
  let bytes := (sizeofTCHAR * CombinedPathSize) % 2 ^ os.platform.sizeBits
  let ok := os.HeapAlloc h bytes
  let h := h ++ [Event.HeapAlloc bytes ok]
  if ok = false then
    (none, h)
  else
    let CombinedPath := Path1
    let CombinedPath :=
      if CombinedPath.data.getLast? ≠ some backslash then
        CombinedPath ++ String.mk [backslash]
      else CombinedPath
    (some (CombinedPath ++ Path2), h)

def FileExists (os : OS) (h : History) (FilePath : String) : Bool × History :=
  let found := os.FindFirstFile h FilePath
  (found, h ++ [Event.FindFirstFile FilePath found])

def IsFile (os : OS) (h : History) (FilePath : String) : Bool × History :=
  let FileAttributes := dword (os.GetFileAttributes h FilePath)
  let h := h ++ [Event.GetFileAttributes FilePath FileAttributes]
  if FileAttributes = INVALID_FILE_ATTRIBUTES then
    (false, h)
  else if FileAttributes &&& FILE_ATTRIBUTE_DIRECTORY = 0 then
    (true, h)
  else
    (false, h)

/-! ## Running programs and rebooting -/

/-- A call of `MessageBox`: the button pressed and the extended history. -/
def MessageBox (os : OS) (h : History) (text caption : String) (uType : Nat) :
    Nat × History :=
  let answer := os.MessageBox h text caption uType
  (answer, h ++ [Event.MessageBox text caption uType answer])

/-- The returned status, the value left in `*ExitCode`, and the history.  `ExitCode` is
the value the caller's variable holds before the call. -/
def RunProgram (os : OS) (g_SilentMode : Bool) (h : History)
    (ProgramPath Parameters : String) (ExitCode : Nat) : Bool × Nat × History :=
  let ok := os.ShellExecuteEx h ProgramPath Parameters
  let h := h ++ [Event.ShellExecuteEx ProgramPath Parameters ok]
  if ok = false then
    (false, ExitCode, DisplayLastWin32Error os g_SilentMode h "ShellExecuteEx")
  else
    match os.GetExitCodeProcess h with
    | none =>
      (false, ExitCode,
        DisplayLastWin32Error os g_SilentMode (h ++ [Event.GetExitCodeProcess none])
          "GetExitCodeProcess")
    | some code =>
      (true, dword code, h ++ [Event.GetExitCodeProcess (some (dword code))])

def RebootSystem (os : OS) (g_SilentMode : Bool) (h : History) : Bool × History :=
  let h := h ++ [Event.call Fn.RebootSystem]
  let ok := os.OpenProcessToken h
  let h := h ++ [Event.OpenProcessToken ok]
  if ok = false then
    (false, h)
  else
    let ok := os.LookupPrivilegeValue h
    let h := h ++ [Event.LookupPrivilegeValue ok]
    if ok = false then
      (false, h)
    else
      let Status := os.AdjustTokenPrivileges h
      let h := h ++ [Event.AdjustTokenPrivileges Status]
      let ErrorCode := dword (os.GetLastError h)
      let h := h ++ [Event.GetLastError ErrorCode]
      if Status = false ∨ ErrorCode ≠ ERROR_SUCCESS then
        (false, DisplayLastWin32Error os g_SilentMode h "AdjustTokenPrivileges")
      else
        let ok := os.ExitWindowsEx h
        let h := h ++ [Event.ExitWindowsEx ok]
        if ok = false then
          (false, DisplayLastWin32Error os g_SilentMode h "ExitWindowsEx")
        else
          (true, h)

/-! ## The two installer steps -/

def rebootPrompt : String :=
  "Windows must be rebooted before setup can continue, reboot now?"

def dotNetFailedText : String :=
  ".NET Framework installation failed. Unable to continue."

/-- Lines 365 to 411 of `RunDotNetInstaller`: what happens once `RunProgram` has
returned `Status` and `ExitCode`. -/
def RunDotNetInstaller.afterRun (os : OS) (g_SilentMode PassiveMode : Bool) (h : History)
    (Status : Bool) (ExitCode : Nat) : Bool × History :=
  if Status then
    if ExitCode = 0 then
      (true, h)
    else if ExitCode = 1641 ∨ ExitCode = 3010 then
      if PassiveMode then
        (false, (RebootSystem os g_SilentMode h).2)
      else
        let box := MessageBox os h rebootPrompt "Reboot Required" (MB_YESNO ||| MB_ICONQUESTION)
        if box.1 = IDYES then
          let box := MessageBox os box.2 "Please run setup again after the system restarts"
            "Reboot Required" (MB_OK ||| MB_ICONINFORMATION)
          let reboot := RebootSystem os g_SilentMode box.2
          if reboot.1 = false then
            (false, (MessageBox os reboot.2 "Reboot failed. Please reboot manually."
              "Fatal Error" (MB_OK ||| MB_ICONERROR)).2)
          else
            (false, reboot.2)
        else
          (false, (MessageBox os box.2
            "Unable to continue. Please reboot the computer and run setup again"
            "Reboot Required" (MB_OK ||| MB_ICONWARNING)).2)
    else if ExitCode = 1602 then
      (false, h)
    else
      (false, (MessageBox os h dotNetFailedText "Fatal Error" (MB_OK ||| MB_ICONERROR)).2)
  else
    (false, h)

def RunDotNetInstaller (os : OS) (g_SilentMode PassiveMode : Bool) (h : History) :
    Option (Bool × History) :=
  let h := h ++ [Event.call Fn.RunDotNetInstaller]
  match GetModulePath os g_SilentMode h with
  | none => none
  | some (none, h) =>
    some (false, (MessageBox os h "Failed to get path, out of memory" "Fatal Error"
      (MB_OK ||| MB_ICONERROR)).2)
  | some (some FilePath, h) =>
    let dir := GetDirectoryName os h FilePath.text
    if dir.1 = false then
      some (false, (MessageBox os dir.2.2 "Failed to get directory" "Fatal Error"
        (MB_OK ||| MB_ICONERROR)).2)
    else
      let combined := CombinePaths os dir.2.2 dir.2.1 DotNetInstallerFileName
      match combined.1 with
      | none =>
        some (false, (MessageBox os combined.2 "Failed to combine paths" "Fatal Error"
          (MB_OK ||| MB_ICONERROR)).2)
      | some InstallerPath =>
        let isThere := FileExists os combined.2 InstallerPath
        let isFile := if isThere.1 then IsFile os isThere.2 InstallerPath else isThere
        if isFile.1 then
          let Parameters :=
            if PassiveMode then "/norestart /passive" else "/norestart /passive /showrmui"
          let run := RunProgram os g_SilentMode isFile.2 InstallerPath Parameters
            (os.indeterminate isFile.2)
          some (RunDotNetInstaller.afterRun os g_SilentMode PassiveMode run.2.2 run.1 run.2.1)
        else
          some (false, (MessageBox os isFile.2
            "Unable to install .NET Framework. Installer was not found in the package."
            "Fatal Error" (MB_OK ||| MB_ICONERROR)).2)

def RunEdkRepoInstaller (os : OS) (g_SilentMode PassiveMode : Bool) (h : History) :
    Option (Bool × History) :=
  let h := h ++ [Event.call Fn.RunEdkRepoInstaller]
  match GetModulePath os g_SilentMode h with
  | none => none
  | some (none, h) =>
    some (false, DisplayErrorMessage os g_SilentMode h "Failed to get path, out of memory")
  | some (some FilePath, h) =>
    let dir := GetDirectoryName os h FilePath.text
    if dir.1 = false then
      some (false, DisplayErrorMessage os g_SilentMode dir.2.2 "Failed to get directory")
    else
      let combined := CombinePaths os dir.2.2 dir.2.1 EdkRepoInstallerFileName
      match combined.1 with
      | none =>
        some (false, DisplayErrorMessage os g_SilentMode combined.2 "Failed to combine paths")
      | some InstallerPath =>
        let isThere := FileExists os combined.2 InstallerPath
        let isFile := if isThere.1 then IsFile os isThere.2 InstallerPath else isThere
        if isFile.1 then
          let Parameters :=
            if g_SilentMode then "/Silent /Passive"
            else if PassiveMode then "/Passive"
            else ""
          let run := RunProgram os g_SilentMode isFile.2 InstallerPath Parameters
            (os.indeterminate isFile.2)
          if run.1 = false ∨ run.2.1 ≠ 0 then
            some (false, run.2.2)
          else
            some (true, run.2.2)
        else
          some (false, DisplayErrorMessage os g_SilentMode isFile.2
            "Unable to install EdkRepo. Installer was not found in the package.")

/-! ## The entry point -/

/-- The `for` loop over `Argv`; the result is `(PassiveMode, SilentMode)`. -/
def _tWinMain.scan : List String → Bool → Bool → Bool × Bool
  | [], PassiveMode, SilentMode => (PassiveMode, SilentMode)
  | arg :: rest, PassiveMode, SilentMode =>
    if arg = "/Passive" then (true, SilentMode)
    else if arg = "/passive" then (true, SilentMode)
    else if arg = "/Silent" then (true, true)
    else if arg = "/silent" then (true, true)
    else _tWinMain.scan rest PassiveMode SilentMode

def SilentDotNetInstallError : String :=
  ".NET Framework 4.5.2 must be installed to continue setup. Please install .NET and try again."

def installPrompt : String :=
  ".NET Framework 4.5.2 must be installed to continue setup. The system must be connected to the Internet to do so. Install now?"

/-- What a run of the process leaves behind: the code given to `exit` and every call made. -/
structure Run where
  exitCode : Nat
  trace : History
  deriving DecidableEq, Repr

/-- Lines 523 to 527: `StdOut` after the attempt to attach to the console of the parent. -/
def _tWinMain.attach (os : OS) (SilentMode : Bool) (h : History) : Nat × History :=
  if SilentMode then
    let ok := os.AttachConsole h
    let h := h ++ [Event.AttachConsole ok]
    if ok then
      let StdOut := os.GetStdHandle h
      (StdOut, h ++ [Event.GetStdHandle StdOut])
    else
      (NULL, h)
  else
    (NULL, h)

/-- Line 528: the conjunction is evaluated left to right and stops at the first `false`. -/
def _tWinMain.detect (os : OS) (h : History) : Bool × History :=
  let installed := os.IsNetfx452Installed h
  let h := h ++ [Event.IsNetfx452Installed installed]
  if installed then
    let version := os.CheckNetfxVersionUsingMscoree h
    (version, h ++ [Event.CheckNetfxVersionUsingMscoree version])
  else
    (false, h)

/-- Lines 553 to 556. -/
def _tWinMain.product (os : OS) (g_SilentMode PassiveMode : Bool) (h : History) :
    Option Run :=
  match RunEdkRepoInstaller os g_SilentMode PassiveMode h with
  | none => none
  | some (false, h) => some ⟨1, h⟩
  | some (true, h) => some ⟨0, h⟩

/-- Lines 549 to 556. -/
def _tWinMain.dependency (os : OS) (g_SilentMode PassiveMode : Bool) (h : History) :
    Option Run :=
  match RunDotNetInstaller os g_SilentMode PassiveMode h with
  | none => none
  | some (false, h) => some ⟨1, h⟩
  | some (true, h) => _tWinMain.product os g_SilentMode PassiveMode h

def _tWinMain (os : OS) (Argv : List String) : Option Run :=
  let mode := _tWinMain.scan Argv false false
  let PassiveMode := mode.1
  let SilentMode := mode.2
  let g_SilentMode := SilentMode
  let console := _tWinMain.attach os SilentMode []
  let StdOut := console.1
  let detected := _tWinMain.detect os console.2
  let bNetfx452Installed := detected.1
  let h := detected.2
  if bNetfx452Installed = false then
    if SilentMode then
      if StdOut ≠ NULL then
        some ⟨1, h ++ [Event.WriteConsole StdOut
          (readTChars os SilentDotNetInstallError (os.platform.sizeofPointer / sizeofTCHAR))]⟩
      else
        some ⟨1, h⟩
    else if PassiveMode = false then
      let box := MessageBox os h installPrompt "Setup" (MB_YESNO ||| MB_ICONQUESTION)
      if box.1 ≠ IDYES then
        some ⟨1, box.2⟩
      else
        _tWinMain.dependency os g_SilentMode PassiveMode box.2
    else
      _tWinMain.dependency os g_SilentMode PassiveMode h
  else
    _tWinMain.product os g_SilentMode PassiveMode h

/-! ## Reference definitions used by the statements -/

/-- The two spellings that select Passive mode. -/
def isPassiveToken (t : String) : Bool :=
  decide (t = "/Passive") || decide (t = "/passive")

/-- The two spellings that select Silent mode. -/
def isSilentToken (t : String) : Bool :=
  decide (t = "/Silent") || decide (t = "/silent")

/-- Mode selection as the specification words it: the first token that is one of the
four spellings decides; the result is `(Passive, Silent)`. -/
def referenceMode (argv : List String) : Bool × Bool :=
  match argv.find? (fun t => isPassiveToken t || isSilentToken t) with
  | none => (false, false)
  | some t => if isPassiveToken t then (true, false) else (true, true)

/-- Equality of two tokens when letter case is ignored. -/
def equalsIgnoringCase (a b : String) : Bool :=
  decide (a.data.map Char.toLower = b.data.map Char.toLower)

/-! ## Classes of events and extension of histories -/

/-- Events the notification helpers can add: a console write in silent mode, a dialog
otherwise. -/
def Event.isDisplay (g : Bool) : Event → Bool
  | .GetLastError _ => true
  | .FormatMessage _ _ => true
  | .GetStdHandle _ => g
  | .WriteConsole _ _ => g
  | .MessageBox _ caption _ _ => !g && decide (caption = "Fatal Error")
  | _ => false

/-- Events of the path helpers, with their error notifications. -/
def Event.isAux (g : Bool) : Event → Bool
  | .HeapAlloc _ _ => true
  | .GetModuleFileName _ _ _ => true
  | .GetFileAttributes _ _ => true
  | .FindFirstFile _ _ => true
  | e => e.isDisplay g

/-- Queries of the path helpers: allocation, module path, file attributes, file search. -/
def Event.isPathQuery : Event → Bool
  | .HeapAlloc _ _ => true
  | .GetModuleFileName _ _ _ => true
  | .GetFileAttributes _ _ => true
  | .FindFirstFile _ _ => true
  | _ => false

/-- The history `h2` is `h1` followed by events that all satisfy `P`. -/
def Extends (P : Event → Bool) (h1 h2 : History) : Prop :=
  ∃ d, h2 = h1 ++ d ∧ ∀ e ∈ d, P e = true

/-! ## Observations on histories -/

/-- Capacity (in characters) of the buffer of the `n`-th attempt of `GetModulePath`,
computed without any wrap-around: 261 at first, then `(15 * c) / 10` of the previous. -/
def capacityAt : Nat → Nat
  | 0 => MAX_PATH + 1
  | n + 1 => 15 * capacityAt n / 10

/-- Byte count of an allocation request. -/
def Event.allocBytes : Event → Option Nat
  | .HeapAlloc bytes _ => some bytes
  | _ => none

/-- The byte counts of the allocation requests of a history, in order. -/
def allocations (d : History) : List Nat :=
  d.filterMap Event.allocBytes

/-- Events of `RebootSystem` after its entry marker. -/
def Event.isReboot (g : Bool) : Event → Bool
  | .OpenProcessToken _ => true
  | .LookupPrivilegeValue _ => true
  | .AdjustTokenPrivileges _ => true
  | .ExitWindowsEx _ => true
  | e => e.isDisplay g

/-- Events of an installer step that did not get an exit code from its installer:
those of the path helpers, a launch, a failed exit-code query, notifications. -/
def Event.isQuiet (g : Bool) : Event → Bool
  | .ShellExecuteEx _ _ _ => true
  | .GetExitCodeProcess none => true
  | e => e.isAux g

/-- Events that follow the exit of the dependency installer: dialogs and a reboot. -/
def Event.isPostRun (g : Bool) : Event → Bool
  | .MessageBox _ caption _ _ => decide (caption = "Fatal Error" ∨ caption = "Reboot Required")
  | .call Fn.RebootSystem => true
  | e => e.isReboot g

/-- Queries of the start of `_tWinMain`, up to the decision to run an installer. -/
def Event.isStartup : Event → Bool
  | .AttachConsole _ => true
  | .GetStdHandle _ => true
  | .IsNetfx452Installed _ => true
  | .CheckNetfxVersionUsingMscoree _ => true
  | _ => false

def Event.isMessageBox : Event → Bool
  | .MessageBox _ _ _ _ => true
  | _ => false

def Event.isWriteConsole : Event → Bool
  | .WriteConsole _ _ => true
  | _ => false

def Event.isShellExecuteEx : Event → Bool
  | .ShellExecuteEx _ _ _ => true
  | _ => false

/-- The dependency predicate held at startup: both detection calls answered `true`. -/
def dependencyPresent (tr : History) : Prop :=
  Event.IsNetfx452Installed true ∈ tr ∧ Event.CheckNetfxVersionUsingMscoree true ∈ tr

instance (tr : History) : Decidable (dependencyPresent tr) := by
  unfold dependencyPresent; infer_instance

/-- Events of the dependency step when it got no exit code: as `isQuiet`, or a dialog. -/
def Event.isQuietDep (g : Bool) : Event → Bool
  | .MessageBox _ caption _ _ => decide (caption = "Fatal Error")
  | e => e.isQuiet g

/-- What `RunDotNetInstaller` does with the exit code `code` of the dependency installer:
`b` is the value returned, `post` the events after the exit code was read. -/
def AfterRunFacts (g p : Bool) (code : Nat) (b : Bool) (post : History) : Prop :=
  (∀ e ∈ post, e.isPostRun g = true)
  ∧ (b = true ↔ code = 0)
  ∧ (code = 0 → post = [])
  ∧ (code = 1641 ∨ code = 3010 →
      (p = true → ∃ r, post = Event.call Fn.RebootSystem :: r)
      ∧ (p = false → ∃ ans rest,
          post = Event.MessageBox rebootPrompt "Reboot Required"
            (MB_YESNO ||| MB_ICONQUESTION) ans :: rest
          ∧ (Event.call Fn.RebootSystem ∈ rest ↔ ans = IDYES)
          ∧ (ans ≠ IDYES → ∀ e ∈ rest, e.isMessageBox = true)))
  ∧ (code = 1602 → post = [])
  ∧ (code ≠ 0 → code ≠ 1641 → code ≠ 3010 → code ≠ 1602 →
      ∃ ans, post = [Event.MessageBox dotNetFailedText "Fatal Error"
        (MB_OK ||| MB_ICONERROR) ans])

/-- The events of `RunDotNetInstaller` after its entry marker, with the value `b` it
returns: either no exit code was obtained and the step failed, or the installer was
found, launched and returned `code`. -/
def DepShape (g p b : Bool) (d : History) : Prop :=
  (b = false ∧ ∀ e ∈ d, e.isQuietDep g = true)
  ∨ ∃ d0 path attrs params code post,
      d = d0 ++ [Event.FindFirstFile path true, Event.GetFileAttributes path attrs,
        Event.ShellExecuteEx path params true, Event.GetExitCodeProcess (some code)]
        ++ post
      ∧ (∀ e ∈ d0, e.isPathQuery = true)
      ∧ AfterRunFacts g p code b post

/-- The events of `RunEdkRepoInstaller` after its entry marker, with the value `b` it
returns. -/
def ProductShape (g b : Bool) (d : History) : Prop :=
  (b = false ∧ ∀ e ∈ d, e.isQuiet g = true)
  ∨ ∃ d0 path attrs params code,
      d = d0 ++ [Event.FindFirstFile path true, Event.GetFileAttributes path attrs,
        Event.ShellExecuteEx path params true, Event.GetExitCodeProcess (some code)]
      ∧ (∀ e ∈ d0, e.isPathQuery = true)
      ∧ attrs ≠ INVALID_FILE_ATTRIBUTES ∧ attrs &&& FILE_ATTRIBUTE_DIRECTORY = 0
      ∧ (b = true ↔ code = 0)

/-- Events that can occur inside an installer step: everything but the entry markers of
the two steps, the queries of the start of `_tWinMain` and dialogs titled "Setup"; no
dialog at all in silent mode. -/
def Event.isInStep (g : Bool) : Event → Bool
  | .call Fn.RunDotNetInstaller => false
  | .call Fn.RunEdkRepoInstaller => false
  | .IsNetfx452Installed _ => false
  | .CheckNetfxVersionUsingMscoree _ => false
  | .AttachConsole _ => false
  | .MessageBox _ caption _ _ => !g && decide (caption ≠ "Setup")
  | _ => true

/-- The product installer found its file: the search succeeded and the attributes are
those of a file. -/
def foundFile (d : History) : Prop :=
  ∃ path attrs, Event.FindFirstFile path true ∈ d ∧ Event.GetFileAttributes path attrs ∈ d
    ∧ attrs ≠ INVALID_FILE_ATTRIBUTES ∧ attrs &&& FILE_ATTRIBUTE_DIRECTORY = 0

/-- An installer was launched successfully. -/
def launched (d : History) : Prop :=
  ∃ path params, Event.ShellExecuteEx path params true ∈ d

/-- The "Install now?" dialog of `_tWinMain`, answered with `answer`. -/
def installDialog (answer : Nat) : Event :=
  Event.MessageBox installPrompt "Setup" (MB_YESNO ||| MB_ICONQUESTION) answer

/-- The ways a run of `_tWinMain` can go, for the modes `P` (Passive) and `S` (Silent):
`st` are the startup queries, `present` the dependency predicate, `r` the run. -/
def RunCases (os : OS) (P S : Bool) (st : History) (present : Bool) (r : Run) : Prop :=
  (S = true ∧ present = false ∧ ∃ w, r = ⟨1, st ++ w⟩
      ∧ (w = [] ∨ ∃ s, s ≠ NULL ∧ Event.AttachConsole false ∉ st ∧ w = [Event.WriteConsole s
          (readTChars os SilentDotNetInstallError (os.platform.sizeofPointer / sizeofTCHAR))]))
  ∨ (S = false ∧ P = false ∧ present = false ∧ ∃ ans, ans ≠ IDYES
      ∧ r = ⟨1, st ++ [installDialog ans]⟩)
  ∨ (S = false ∧ present = false ∧ ∃ bx b d,
      ((P = true ∧ bx = []) ∨ (P = false ∧ bx = [installDialog IDYES]))
      ∧ DepShape false P b d
      ∧ ((b = false ∧ r = ⟨1, st ++ bx ++ Event.call Fn.RunDotNetInstaller :: d⟩)
        ∨ (b = true ∧ ∃ b2 d2, ProductShape false b2 d2
            ∧ r = ⟨if b2 then 0 else 1, st ++ bx ++ Event.call Fn.RunDotNetInstaller :: d
                ++ Event.call Fn.RunEdkRepoInstaller :: d2⟩)))
  ∨ (present = true ∧ ∃ b2 d2, ProductShape S b2 d2
      ∧ r = ⟨if b2 then 0 else 1, st ++ Event.call Fn.RunEdkRepoInstaller :: d2⟩)

/-! ## Outcomes of the dependency installer, as the specification names them -/

inductive ExitOutcome
  | Success
  | RebootRequired
  | UserCancelled
  | Fatal
  deriving DecidableEq, Repr

/-- The table of the specification: 0 is Success, 1641 and 3010 are RebootRequired, 1602
is UserCancelled, every other code is Fatal.  The mode is not an argument. -/
def classifyDependencyExit (code : Nat) : ExitOutcome :=
  if code = 0 then ExitOutcome.Success
  else if code = 1641 ∨ code = 3010 then ExitOutcome.RebootRequired
  else if code = 1602 then ExitOutcome.UserCancelled
  else ExitOutcome.Fatal

/-- What an outcome looks like from outside: `b` is the value `RunDotNetInstaller`
returns and `post` are the events after the exit code was read.  Success and
UserCancelled show nothing; RebootRequired starts the reboot handling (the reboot itself
or the "reboot now?" dialog); Fatal shows the "installation failed" dialog and nothing
else. -/
def OutcomeObserved (o : ExitOutcome) (b : Bool) (post : History) : Prop :=
  match o with
  | ExitOutcome.Success => b = true ∧ post = []
  | ExitOutcome.RebootRequired =>
    b = false ∧ ((∃ rest, post = Event.call Fn.RebootSystem :: rest)
      ∨ ∃ ans rest, post = Event.MessageBox rebootPrompt "Reboot Required"
          (MB_YESNO ||| MB_ICONQUESTION) ans :: rest)
  | ExitOutcome.UserCancelled => b = false ∧ post = []
  | ExitOutcome.Fatal =>
    b = false ∧ ∃ ans, post = [Event.MessageBox dotNetFailedText "Fatal Error"
      (MB_OK ||| MB_ICONERROR) ans]

/-! ## Concrete environments -/

/-- An environment where everything works: the console of the parent can be attached,
the dependency is present, the launcher sits in `C:\dir`, both installers are found and
return 0, and every dialog is answered Yes. -/
def osAllGood : OS where
  platform := Platform.x64
  memoryAfter := fun _ _ => Char.ofNat 0
  indeterminate := fun _ => 0
  AttachConsole := fun _ => true
  GetStdHandle := fun _ => 44
  MessageBox := fun _ _ _ _ => IDYES
  GetLastError := fun _ => 0
  FormatMessage := fun _ _ => none
  HeapAlloc := fun _ _ => true
  GetModuleFileName := fun _ _ => (24, "C:\\dir\\SetupLauncher.exe")
  GetFileAttributes := fun _ p => if p = "C:\\dir" then 0x10 else 0x20
  FindFirstFile := fun _ _ => true
  ShellExecuteEx := fun _ _ _ => true
  GetExitCodeProcess := fun _ => some 0
  OpenProcessToken := fun _ => true
  LookupPrivilegeValue := fun _ => true
  AdjustTokenPrivileges := fun _ => true
  ExitWindowsEx := fun _ => true
  IsNetfx452Installed := fun _ => true
  CheckNetfxVersionUsingMscoree := fun _ => true

/-- As `osAllGood`, but the dependency is absent, the dependency installer returns `code`
(the product installer still returns 0) and every dialog is answered with `answer`. -/
def osAbsent (code answer : Nat) : OS :=
  { osAllGood with
    CheckNetfxVersionUsingMscoree := fun _ => false
    MessageBox := fun _ _ _ _ => answer
    GetExitCodeProcess := fun h =>
      if Event.call Fn.RunEdkRepoInstaller ∈ h then some 0 else some code }

/-- As `osAbsent`, and there is no console of a parent to attach to. -/
def osNoConsole : OS :=
  { osAbsent 0 IDYES with AttachConsole := fun _ => false }

/-- As `osAbsent`, built for x86. -/
def osAbsent32 : OS :=
  { osAbsent 0 IDYES with platform := Platform.x86 }

/-- An environment where the path never fits: the path query always reports a length
equal to the size of the buffer it was given. -/
def osNeverFits : OS :=
  { osAllGood with GetModuleFileName := fun _ nSize => (nSize, "") }

/-- Events of the dependency step of `osAbsent`, from the entry of `RunDotNetInstaller`
to the launch of the installer with the parameters `params`. -/
def dependencyLaunch (params : String) : History :=
  [Event.call Fn.RunDotNetInstaller,
   Event.HeapAlloc 522 true,
   Event.GetModuleFileName 261 24 "C:\\dir\\SetupLauncher.exe",
   Event.GetFileAttributes "C:\\dir" 16,
   Event.HeapAlloc 64 true,
   Event.FindFirstFile "C:\\dir\\NDP452-KB2901954-Web.exe" true,
   Event.GetFileAttributes "C:\\dir\\NDP452-KB2901954-Web.exe" 32,
   Event.ShellExecuteEx "C:\\dir\\NDP452-KB2901954-Web.exe" params true]

/-- Events of a successful `RebootSystem`. -/
def rebootDone : History :=
  [Event.call Fn.RebootSystem, Event.OpenProcessToken true, Event.LookupPrivilegeValue true,
   Event.AdjustTokenPrivileges true, Event.GetLastError 0, Event.ExitWindowsEx true]

/-- Events of the Interactive reboot handling when the user answers No (7). -/
def rebootDeclined : History :=
  [Event.MessageBox rebootPrompt "Reboot Required" (MB_YESNO ||| MB_ICONQUESTION) 7,
   Event.MessageBox "Unable to continue. Please reboot the computer and run setup again"
     "Reboot Required" (MB_OK ||| MB_ICONWARNING) 7]

/-! ## Mode selection -/

theorem scan_cons_of_not_flag (t : String) (rest : List String) (p s : Bool)
    (ht : (isPassiveToken t || isSilentToken t) = false) :
    _tWinMain.scan (t :: rest) p s = _tWinMain.scan rest p s := by
  simp only [isPassiveToken, isSilentToken, Bool.or_eq_false_iff, decide_eq_false_iff_not] at ht
  simp [_tWinMain.scan, ht.1.1, ht.1.2, ht.2.1, ht.2.2]

theorem scan_append_of_no_flag (pre rest : List String) (p s : Bool)
    (hpre : ∀ x ∈ pre, (isPassiveToken x || isSilentToken x) = false) :
    _tWinMain.scan (pre ++ rest) p s = _tWinMain.scan rest p s := by
  induction pre with
  | nil => rfl
  | cons a pre ih =>
    rw [List.cons_append, scan_cons_of_not_flag _ _ _ _ (hpre a (List.mem_cons_self _ _))]
    exact ih (fun x hx => hpre x (List.mem_cons_of_mem _ hx))

theorem scan_cons_passive (t : String) (rest : List String) (p s : Bool)
    (ht : isPassiveToken t = true) : _tWinMain.scan (t :: rest) p s = (true, s) := by
  simp only [isPassiveToken, Bool.or_eq_true, decide_eq_true_eq] at ht
  rcases ht with ht | ht <;> subst ht <;> simp [_tWinMain.scan]

theorem scan_cons_silent (t : String) (rest : List String) (p s : Bool)
    (ht : isSilentToken t = true) : _tWinMain.scan (t :: rest) p s = (true, true) := by
  simp only [isSilentToken, Bool.or_eq_true, decide_eq_true_eq] at ht
  rcases ht with ht | ht <;> subst ht <;> simp [_tWinMain.scan]

theorem passive_not_silent (t : String) (ht : isPassiveToken t = true) :
    isSilentToken t = false := by
  simp only [isPassiveToken, Bool.or_eq_true, decide_eq_true_eq] at ht
  rcases ht with ht | ht <;> subst ht <;> decide

theorem scan_silent_imp_passive (argv : List String) :
    (_tWinMain.scan argv false false).2 = true → (_tWinMain.scan argv false false).1 = true := by
  induction argv with
  | nil => simp [_tWinMain.scan]
  | cons a rest ih =>
    by_cases hp : isPassiveToken a = true
    · rw [scan_cons_passive _ _ _ _ hp]; simp
    · by_cases hs : isSilentToken a = true
      · rw [scan_cons_silent _ _ _ _ hs]; simp
      · rw [scan_cons_of_not_flag _ _ _ _ (by simp [hp, hs])]; exact ih

theorem scan_eq_reference (argv : List String) :
    _tWinMain.scan argv false false = referenceMode argv := by
  induction argv with
  | nil => rfl
  | cons a rest ih =>
    by_cases hp : isPassiveToken a = true
    · rw [scan_cons_passive _ _ _ _ hp]; simp [referenceMode, List.find?, hp]
    · by_cases hs : isSilentToken a = true
      · rw [scan_cons_silent _ _ _ _ hs]; simp [referenceMode, List.find?, hp, hs]
      · rw [scan_cons_of_not_flag _ _ _ _ (by simp [hp, hs]), ih]
        simp [referenceMode, List.find?, hp, hs]

theorem scan_ignores_later (argv : List String) (t : String) (later later' : List String)
    (ht : (isPassiveToken t || isSilentToken t) = true) :
    _tWinMain.scan (argv ++ t :: later) false false
      = _tWinMain.scan (argv ++ t :: later') false false := by
  induction argv with
  | nil =>
    rcases Bool.or_eq_true _ _ |>.mp ht with hp | hs
    · simp [scan_cons_passive _ _ _ _ hp]
    · simp [scan_cons_silent _ _ _ _ hs]
  | cons a rest ih =>
    by_cases hp : isPassiveToken a = true
    · simp [scan_cons_passive _ _ _ _ hp]
    · by_cases hs : isSilentToken a = true
      · simp [scan_cons_silent _ _ _ _ hs]
      · simp only [List.cons_append]
        rw [scan_cons_of_not_flag _ _ _ _ (by simp [hp, hs]),
          scan_cons_of_not_flag _ _ _ _ (by simp [hp, hs])]
        exact ih

/-- C2. For every argv the scan loop of `_tWinMain` computes the reference mode (the
first token that is exactly one of the four spellings decides, no match leaves both
flags clear), Silent implies Passive, and the tokens after a matching token never
change the result. -/
theorem scan_first_flag_wins (argv : List String) :
    _tWinMain.scan argv false false = referenceMode argv
    ∧ ((_tWinMain.scan argv false false).2 = true → (_tWinMain.scan argv false false).1 = true)
    ∧ (∀ (t : String) (later later' : List String),
        (isPassiveToken t || isSilentToken t) = true →
        _tWinMain.scan (argv ++ t :: later) false false
          = _tWinMain.scan (argv ++ t :: later') false false) :=
  ⟨scan_eq_reference argv, scan_silent_imp_passive argv,
    fun t later later' ht => scan_ignores_later argv t later later' ht⟩

/-- C2, at a concrete command line: the first flag is `/passive`, the later `/silent` is
without effect. -/
theorem scan_first_flag_wins_witness :
    _tWinMain.scan ["SetupLauncher.exe", "/passive", "/silent"] false false = (true, false)
    ∧ _tWinMain.scan (["SetupLauncher.exe"] ++ "/passive" :: ["/silent"]) false false
        = _tWinMain.scan (["SetupLauncher.exe"] ++ "/passive" :: []) false false :=
  ⟨by decide,
    (scan_first_flag_wins ["SetupLauncher.exe"]).2.2 "/passive" ["/silent"] [] (by decide)⟩

/-- C3, refuted: `/PASSIVE` and `/SILENT` equal the flags when case is ignored, and the
scan leaves both mode flags clear for them. -/
theorem scan_upper_case_not_recognised :
    equalsIgnoringCase "/PASSIVE" "/passive" = true
    ∧ equalsIgnoringCase "/SILENT" "/silent" = true
    ∧ _tWinMain.scan ["SetupLauncher.exe", "/PASSIVE"] false false = (false, false)
    ∧ _tWinMain.scan ["SetupLauncher.exe", "/SILENT"] false false = (false, false) := by
  decide

/-- C3, amended. The scan compares tokens exactly: when no earlier token is one of the
four spellings, a token `/Passive` or `/passive` selects Passive, a token `/Silent` or
`/silent` selects Silent and Passive, and any other token, also one that differs from a
flag in letter case only, is skipped. -/
theorem scan_exact_match (before after : List String) (t : String)
    (hbefore : ∀ x ∈ before, (isPassiveToken x || isSilentToken x) = false) :
    (isPassiveToken t = true →
      _tWinMain.scan (before ++ t :: after) false false = (true, false))
    ∧ (isSilentToken t = true →
      _tWinMain.scan (before ++ t :: after) false false = (true, true))
    ∧ ((isPassiveToken t || isSilentToken t) = false →
      _tWinMain.scan (before ++ t :: after) false false = _tWinMain.scan after false false) := by
  rw [scan_append_of_no_flag _ _ _ _ hbefore]
  exact ⟨fun h => scan_cons_passive _ _ _ _ h, fun h => scan_cons_silent _ _ _ _ h,
    fun h => scan_cons_of_not_flag _ _ _ _ h⟩

/-- C3 amended, at a concrete command line: `/PASSIVE` is skipped and the exact
`/silent` after it selects Silent. -/
theorem scan_exact_match_witness :
    _tWinMain.scan (["SetupLauncher.exe"] ++ "/PASSIVE" :: ["/silent"]) false false
      = _tWinMain.scan ["/silent"] false false
    ∧ _tWinMain.scan ["/silent"] false false = (true, true) :=
  ⟨(scan_exact_match ["SetupLauncher.exe"] ["/silent"] "/PASSIVE" (by decide)).2.2 (by decide),
    by decide⟩

/-! ## Extension lemmas -/

theorem Extends.refl (P : Event → Bool) (h : History) : Extends P h h :=
  ⟨[], by simp, by simp⟩

theorem Extends.snoc {P : Event → Bool} {h1 h2 : History} (hx : Extends P h1 h2) (e : Event)
    (he : P e = true) : Extends P h1 (h2 ++ [e]) := by
  obtain ⟨d, rfl, hd⟩ := hx
  refine ⟨d ++ [e], by simp, ?_⟩
  intro x hx
  rcases List.mem_append.mp hx with hx | hx
  · exact hd x hx
  · simp at hx; subst hx; exact he

theorem Extends.trans {P : Event → Bool} {h1 h2 h3 : History} (hx : Extends P h1 h2)
    (hy : Extends P h2 h3) : Extends P h1 h3 := by
  obtain ⟨d, rfl, hd⟩ := hx
  obtain ⟨d2, rfl, hd2⟩ := hy
  refine ⟨d ++ d2, by simp, ?_⟩
  intro x hx
  rcases List.mem_append.mp hx with hx | hx
  · exact hd x hx
  · exact hd2 x hx

theorem Extends.mono {P Q : Event → Bool} {h1 h2 : History} (hx : Extends P h1 h2)
    (hPQ : ∀ e, P e = true → Q e = true) : Extends Q h1 h2 := by
  obtain ⟨d, rfl, hd⟩ := hx
  exact ⟨d, rfl, fun e he => hPQ e (hd e he)⟩

theorem isPathQuery_isAux (g : Bool) (e : Event) (he : e.isPathQuery = true) :
    e.isAux g = true := by
  cases e <;> simp_all [Event.isPathQuery, Event.isAux]

theorem isPathQuery_of_isAux (g : Bool) (e : Event) (he : e.isAux g = true)
    (hd : e.isDisplay g = false) : e.isPathQuery = true := by
  cases e <;> simp_all [Event.isPathQuery, Event.isAux]

theorem isDisplay_isAux (g : Bool) (e : Event) (he : e.isDisplay g = true) :
    e.isAux g = true := by
  cases e <;> simp_all [Event.isDisplay, Event.isAux]

theorem DisplayErrorMessage_extends (os : OS) (g : Bool) (h : History) (m : String) :
    Extends (Event.isDisplay g) h (DisplayErrorMessage os g h m) := by
  unfold DisplayErrorMessage
  cases g
  · simp only [Bool.false_eq_true, if_false]
    exact (Extends.refl _ h).snoc _ rfl
  · simp only [if_true]
    split
    · exact (((Extends.refl _ h).snoc _ rfl).snoc _ rfl).snoc _ rfl
    · exact (Extends.refl _ h).snoc _ rfl

theorem DisplayWin32Error_extends (os : OS) (g : Bool) (h : History) (f : String) (n : Nat) :
    Extends (Event.isDisplay g) h (DisplayWin32Error os g h f n) := by
  unfold DisplayWin32Error
  dsimp only
  split
  · exact ((Extends.refl _ h).snoc _ rfl).trans (DisplayErrorMessage_extends _ _ _ _)
  · exact ((Extends.refl _ h).snoc _ rfl).trans (DisplayErrorMessage_extends _ _ _ _)

theorem DisplayLastWin32Error_extends (os : OS) (g : Bool) (h : History) (f : String) :
    Extends (Event.isDisplay g) h (DisplayLastWin32Error os g h f) := by
  unfold DisplayLastWin32Error
  exact ((Extends.refl _ h).snoc _ rfl).trans (DisplayWin32Error_extends _ _ _ _ _)

theorem GetDirectoryName_extends (os : OS) (h : History) (p : String) :
    Extends Event.isPathQuery h (GetDirectoryName os h p).2.2 := by
  unfold GetDirectoryName
  simp only
  split
  · exact (Extends.refl _ h).snoc _ rfl
  · split
    · split
      · exact ((Extends.refl _ h).snoc _ rfl).snoc _ rfl
      · split <;> exact ((Extends.refl _ h).snoc _ rfl).snoc _ rfl
    · exact (Extends.refl _ h).snoc _ rfl

theorem CombinePaths_extends (os : OS) (h : History) (p q : String) :
    Extends Event.isPathQuery h (CombinePaths os h p q).2 := by
  unfold CombinePaths
  simp only
  split <;> exact (Extends.refl _ h).snoc _ rfl

theorem FileExists_extends (os : OS) (h : History) (p : String) :
    Extends Event.isPathQuery h (FileExists os h p).2 := by
  unfold FileExists
  exact (Extends.refl _ h).snoc _ rfl

theorem IsFile_extends (os : OS) (h : History) (p : String) :
    Extends Event.isPathQuery h (IsFile os h p).2 := by
  unfold IsFile
  simp only
  split
  · exact (Extends.refl _ h).snoc _ rfl
  · split <;> exact (Extends.refl _ h).snoc _ rfl

/-! ## Termination of `GetModulePath` -/

theorem capacityAt_facts :
    ∀ i, i < 32 → capacityAt i < 0x6400000 ∧ capacityAt i < capacityAt (i + 1)
      ∧ 15 * capacityAt i < 2 ^ 32 ∧ sizeofTCHAR * capacityAt i < 2 ^ 32 := by
  decide

theorem capacityAt_32 : 0x6400000 ≤ capacityAt 32 := by decide

theorem two_pow_32_le_sizeBits (p : Platform) : 2 ^ 32 ≤ 2 ^ p.sizeBits := by
  cases p <;> decide

theorem mod_sizeBits (p : Platform) (n : Nat) (hn : n < 2 ^ 32) : n % 2 ^ p.sizeBits = n :=
  Nat.mod_eq_of_lt (lt_of_lt_of_le hn (two_pow_32_le_sizeBits p))

theorem allocations_of_display (g : Bool) (d : History)
    (hd : ∀ e ∈ d, e.isDisplay g = true) : allocations d = [] := by
  unfold allocations
  rw [List.filterMap_eq_nil_iff]
  intro e he
  have := hd e he
  cases e <;> simp_all [Event.isDisplay, Event.allocBytes]

theorem loop_from (os : OS) (g : Bool) :
    ∀ (fuel i : Nat) (h : History) (buf : Buffer) (size : Nat),
      33 ≤ fuel + (i + 1) → i ≤ 31 → buf.capacity = capacityAt i →
      ∃ res d k,
        GetModulePath.loop os g fuel h (some buf) (capacityAt i) size = some (res, h ++ d)
        ∧ (∀ e ∈ d, e.isAux g = true)
        ∧ i + 1 + k ≤ 32
        ∧ allocations d = (List.range' (i + 1) k).map (fun j => sizeofTCHAR * capacityAt j)
        ∧ (∀ b, res = some b →
            (∀ e ∈ d, e.isDisplay g = false)
            ∧ ((d = [] ∧ b = buf ∧ size < capacityAt i)
              ∨ ∃ pre n, d = pre ++ [Event.GetModuleFileName b.capacity n b.text]
                  ∧ n < b.capacity ∧ 0 < n)) := by
  intro fuel
  induction fuel with
  | zero => intro i h buf size hf hi; omega
  | succ fuel ih =>
    intro i h buf size hf hi hbuf
    obtain ⟨hlim, hgrow, hmul, hbytes⟩ := capacityAt_facts i (by omega)
    have hnext : (15 * capacityAt i) % 2 ^ os.platform.sizeBits / 10 = capacityAt (i + 1) := by
      rw [mod_sizeBits _ _ hmul]; rfl
    rw [GetModulePath.loop]
    by_cases hsize : size ≥ capacityAt i
    · simp only [hsize, if_true, Option.isSome_some, hnext, true_and]
      by_cases hbig : capacityAt (i + 1) ≥ 0x6400000
      · simp only [hbig, if_true]
        exact ⟨none, [], 0, by simp, by simp, by omega, by simp [allocations], by simp⟩
      · simp only [hbig, if_false]
        have hi1 : i + 1 < 32 := by
          rcases Nat.lt_or_ge (i + 1) 32 with h1 | h1
          · exact h1
          · have : i + 1 = 32 := by omega
            rw [this] at hbig
            exact absurd capacityAt_32 hbig
        obtain ⟨hlim1, hgrow1, hmul1, hbytes1⟩ := capacityAt_facts (i + 1) hi1
        have hb : (sizeofTCHAR * capacityAt (i + 1)) % 2 ^ os.platform.sizeBits
            = sizeofTCHAR * capacityAt (i + 1) := mod_sizeBits _ _ hbytes1
        have hdw : dword (capacityAt (i + 1)) = capacityAt (i + 1) := by
          unfold dword DWORD_MOD
          exact Nat.mod_eq_of_lt (by omega)
        rw [hb, hdw]
        cases hok : os.HeapAlloc h (sizeofTCHAR * capacityAt (i + 1))
        · simp only [if_true]
          refine ⟨none, [Event.HeapAlloc _ false], 1, rfl, ?_, by omega, ?_, by simp⟩
          · simp [Event.isAux]
          · simp [allocations, Event.allocBytes, List.range']
        · simp only [Bool.true_eq_false, if_false]
          generalize os.GetModuleFileName
            (h ++ [Event.HeapAlloc (sizeofTCHAR * capacityAt (i + 1)) true])
            (capacityAt (i + 1)) = ans
          split
          · rename_i hzero
            obtain ⟨d, hd, hdP⟩ := DisplayLastWin32Error_extends os g
              (h ++ [Event.HeapAlloc (sizeofTCHAR * capacityAt (i + 1)) true]
                ++ [Event.GetModuleFileName (capacityAt (i + 1)) (dword ans.1) ans.2])
              "GetModuleFileName"
            rw [hd]
            refine ⟨none, Event.HeapAlloc (sizeofTCHAR * capacityAt (i + 1)) true
              :: Event.GetModuleFileName (capacityAt (i + 1)) (dword ans.1) ans.2 :: d, 1,
              by simp, ?_, by omega, ?_, by simp⟩
            · intro e he
              simp only [List.mem_cons] at he
              rcases he with rfl | rfl | he
              · rfl
              · rfl
              · exact isDisplay_isAux g e (hdP e he)
            · have := allocations_of_display g d hdP
              simp only [allocations] at this ⊢
              simp [List.filterMap_cons, Event.allocBytes, this, List.range']
          · rename_i hzero
            obtain ⟨res, d, k, hrun, hP, hk, halloc, hres⟩ := ih (i + 1)
              (h ++ [Event.HeapAlloc (sizeofTCHAR * capacityAt (i + 1)) true]
                ++ [Event.GetModuleFileName (capacityAt (i + 1)) (dword ans.1) ans.2])
              ⟨capacityAt (i + 1), ans.2⟩ (dword ans.1) (by omega) (by omega) rfl
            rw [hrun]
            refine ⟨res, Event.HeapAlloc (sizeofTCHAR * capacityAt (i + 1)) true
              :: Event.GetModuleFileName (capacityAt (i + 1)) (dword ans.1) ans.2 :: d, k + 1,
              by simp, ?_, by omega, ?_, ?_⟩
            · intro e he
              simp only [List.mem_cons] at he
              rcases he with rfl | rfl | he
              · rfl
              · rfl
              · exact hP e he
            · simp only [allocations] at halloc ⊢
              simp [List.filterMap_cons, Event.allocBytes, halloc, List.range'_succ]
            · intro b hb
              obtain ⟨hnd, hcase⟩ := hres b hb
              refine ⟨?_, ?_⟩
              · intro e he
                simp only [List.mem_cons] at he
                rcases he with rfl | rfl | he
                · rfl
                · rfl
                · exact hnd e he
              · right
                rcases hcase with ⟨hd, hbb, hlt⟩ | ⟨pre, n, hd, hn, hpos⟩
                · subst hd; subst hbb
                  exact ⟨[Event.HeapAlloc (sizeofTCHAR * capacityAt (i + 1)) true], dword ans.1,
                    rfl, hlt, Nat.pos_of_ne_zero hzero⟩
                · subst hd
                  exact ⟨Event.HeapAlloc (sizeofTCHAR * capacityAt (i + 1)) true
                    :: Event.GetModuleFileName (capacityAt (i + 1)) (dword ans.1) ans.2 :: pre, n,
                    rfl, hn, hpos⟩
    · simp only [hsize, if_false]
      refine ⟨some buf, [], 0, by simp, by simp, by omega, by simp [allocations], ?_⟩
      intro b hb
      simp only [Option.some.injEq] at hb
      exact ⟨by simp, Or.inl ⟨rfl, hb.symm, by omega⟩⟩

theorem loop_first (os : OS) (g : Bool) (h : History) (fuel : Nat) (hfuel : 33 ≤ fuel) :
    ∃ res d k,
      GetModulePath.loop os g fuel h none (MAX_PATH + 1) (dword (MAX_PATH + 1))
        = some (res, h ++ d)
      ∧ (∀ e ∈ d, e.isAux g = true)
      ∧ k ≤ 32
      ∧ allocations d = (List.range' 0 k).map (fun j => sizeofTCHAR * capacityAt j)
      ∧ (∀ b, res = some b →
          (∀ e ∈ d, e.isDisplay g = false)
          ∧ ∃ pre n, d = pre ++ [Event.GetModuleFileName b.capacity n b.text]
              ∧ n < b.capacity ∧ 0 < n) := by
  obtain ⟨fuel, rfl⟩ : ∃ f, fuel = f + 1 := ⟨fuel - 1, by omega⟩
  have h261 : MAX_PATH + 1 = capacityAt 0 := rfl
  have hdw : dword (capacityAt 0) = capacityAt 0 := by decide
  have hb : (sizeofTCHAR * capacityAt 0) % 2 ^ os.platform.sizeBits = sizeofTCHAR * capacityAt 0 :=
    mod_sizeBits _ _ (by decide)
  rw [GetModulePath.loop, h261, hdw]
  simp only [ge_iff_le, le_refl, if_true, Option.isSome_none, Bool.false_eq_true, false_and,
    if_false, hb, hdw]
  cases hok : os.HeapAlloc h (sizeofTCHAR * capacityAt 0)
  · simp only [if_true]
    refine ⟨none, [Event.HeapAlloc _ false], 1, rfl, ?_, by omega, ?_, by simp⟩
    · simp [Event.isAux]
    · simp [allocations, Event.allocBytes, List.range']
  · simp only [Bool.true_eq_false, if_false]
    generalize os.GetModuleFileName
      (h ++ [Event.HeapAlloc (sizeofTCHAR * capacityAt 0) true]) (capacityAt 0) = ans
    split
    · rename_i hzero
      obtain ⟨d, hd, hdP⟩ := DisplayLastWin32Error_extends os g
        (h ++ [Event.HeapAlloc (sizeofTCHAR * capacityAt 0) true]
          ++ [Event.GetModuleFileName (capacityAt 0) (dword ans.1) ans.2])
        "GetModuleFileName"
      rw [hd]
      refine ⟨none, Event.HeapAlloc (sizeofTCHAR * capacityAt 0) true
        :: Event.GetModuleFileName (capacityAt 0) (dword ans.1) ans.2 :: d, 1,
        by simp, ?_, by omega, ?_, by simp⟩
      · intro e he
        simp only [List.mem_cons] at he
        rcases he with rfl | rfl | he
        · rfl
        · rfl
        · exact isDisplay_isAux g e (hdP e he)
      · have := allocations_of_display g d hdP
        simp only [allocations] at this ⊢
        simp [List.filterMap_cons, Event.allocBytes, this, List.range']
    · rename_i hzero
      obtain ⟨res, d, k, hrun, hP, hk, halloc, hres⟩ := loop_from os g fuel 0
        (h ++ [Event.HeapAlloc (sizeofTCHAR * capacityAt 0) true]
          ++ [Event.GetModuleFileName (capacityAt 0) (dword ans.1) ans.2])
        ⟨capacityAt 0, ans.2⟩ (dword ans.1) (by omega) (by omega) rfl
      rw [hrun]
      refine ⟨res, Event.HeapAlloc (sizeofTCHAR * capacityAt 0) true
        :: Event.GetModuleFileName (capacityAt 0) (dword ans.1) ans.2 :: d, k + 1,
        by simp, ?_, by omega, ?_, ?_⟩
      · intro e he
        simp only [List.mem_cons] at he
        rcases he with rfl | rfl | he
        · rfl
        · rfl
        · exact hP e he
      · simp only [allocations] at halloc ⊢
        simp [List.filterMap_cons, Event.allocBytes, halloc, List.range'_succ]
      · intro b hb
        obtain ⟨hnd, hcase⟩ := hres b hb
        refine ⟨?_, ?_⟩
        · intro e he
          simp only [List.mem_cons] at he
          rcases he with rfl | rfl | he
          · rfl
          · rfl
          · exact hnd e he
        · rcases hcase with ⟨hd, hbb, hlt⟩ | ⟨pre, n, hd, hn, hpos⟩
          · subst hd; subst hbb
            exact ⟨[Event.HeapAlloc (sizeofTCHAR * capacityAt 0) true], dword ans.1,
              rfl, hlt, Nat.pos_of_ne_zero hzero⟩
          · subst hd
            exact ⟨Event.HeapAlloc (sizeofTCHAR * capacityAt 0) true
              :: Event.GetModuleFileName (capacityAt 0) (dword ans.1) ans.2 :: pre, n,
              rfl, hn, hpos⟩

/-- C10. The loop of `GetModulePath` ends within 33 iterations whatever the allocator and
the path query answer.  The buffers requested are, in order, those of capacities
261, 391, ... (`capacityAt 0`, `capacityAt 1`, ...), at most 32 of them; each capacity is
below 0x6400000 and strictly below its successor `(15 * c) / 10`, and `15 * c` stays
below `2 ^ 32`; the capacity that would come 33rd is 0x6400000 or more and is never
requested.  A non-NULL result comes right after a path query that reported a
non-zero length strictly below the capacity of the returned buffer. -/
theorem GetModulePath_terminates (os : OS) (g_SilentMode : Bool) (h : History) (fuel : Nat)
    (hfuel : 33 ≤ fuel) :
    ∃ res d k,
      GetModulePath.loop os g_SilentMode fuel h none (MAX_PATH + 1) (dword (MAX_PATH + 1))
        = some (res, h ++ d)
      ∧ k ≤ 32
      ∧ allocations d = (List.range k).map (fun j => sizeofTCHAR * capacityAt j)
      ∧ capacityAt 0 = 261 ∧ 0x6400000 ≤ capacityAt 32
      ∧ (∀ j, j < k → capacityAt (j + 1) = 15 * capacityAt j / 10
          ∧ capacityAt j < capacityAt (j + 1)
          ∧ capacityAt j < 0x6400000
          ∧ 15 * capacityAt j < 2 ^ 32)
      ∧ (∀ b, res = some b →
          ∃ pre n, d = pre ++ [Event.GetModuleFileName b.capacity n b.text]
            ∧ 0 < n ∧ n < b.capacity) := by
  obtain ⟨res, d, k, hrun, _, hk, halloc, hres⟩ := loop_first os g_SilentMode h fuel hfuel
  refine ⟨res, d, k, hrun, hk, ?_, rfl, capacityAt_32, ?_, ?_⟩
  · rw [halloc, List.range_eq_range']
  · intro j hj
    obtain ⟨h1, h2, h3, _⟩ := capacityAt_facts j (by omega)
    exact ⟨rfl, h2, h1, h3⟩
  · intro b hb
    obtain ⟨_, pre, n, hd, hn, hpos⟩ := hres b hb
    exact ⟨pre, n, hd, hpos, hn⟩

theorem GetModulePath_spec (os : OS) (g : Bool) (h : History) :
    ∃ res d, GetModulePath os g h = some (res, h ++ d)
      ∧ (∀ e ∈ d, e.isAux g = true)
      ∧ (res ≠ none → ∀ e ∈ d, e.isDisplay g = false) := by
  obtain ⟨res, d, k, hrun, hP, _, _, hres⟩ :=
    loop_first os g h GetModulePath.fuel (by decide)
  refine ⟨res, d, hrun, hP, ?_⟩
  intro hne
  cases res with
  | none => exact absurd rfl hne
  | some b => exact (hres b rfl).1
/-! ## Running programs and rebooting -/

theorem isDisplay_isReboot (g : Bool) (e : Event) (he : e.isDisplay g = true) :
    e.isReboot g = true := by
  cases e <;> simp_all [Event.isDisplay, Event.isReboot]

theorem isAux_isQuiet (g : Bool) (e : Event) (he : e.isAux g = true) :
    e.isQuiet g = true := by
  cases e <;> simp_all [Event.isDisplay, Event.isAux, Event.isQuiet]

theorem isDisplay_isQuiet (g : Bool) (e : Event) (he : e.isDisplay g = true) :
    e.isQuiet g = true :=
  isAux_isQuiet g e (isDisplay_isAux g e he)

theorem RunProgram_spec (os : OS) (g : Bool) (h : History) (path params : String) (c0 : Nat) :
    (∃ code, RunProgram os g h path params c0
        = (true, code, h ++ [Event.ShellExecuteEx path params true,
            Event.GetExitCodeProcess (some code)]))
    ∨ (∃ code d, RunProgram os g h path params c0 = (false, code, h ++ d)
        ∧ ∀ e ∈ d, e.isQuiet g = true) := by
  unfold RunProgram
  dsimp only
  cases hok : os.ShellExecuteEx h path params
  · right
    simp only [if_true]
    obtain ⟨d, hd, hdP⟩ := DisplayLastWin32Error_extends os g
      (h ++ [Event.ShellExecuteEx path params false]) "ShellExecuteEx"
    rw [hd]
    refine ⟨c0, Event.ShellExecuteEx path params false :: d, by simp, ?_⟩
    intro e he
    simp only [List.mem_cons] at he
    rcases he with rfl | he
    · rfl
    · exact isDisplay_isQuiet g e (hdP e he)
  · simp only [Bool.true_eq_false, if_false]
    cases hcode : os.GetExitCodeProcess (h ++ [Event.ShellExecuteEx path params true])
    · right
      dsimp only
      obtain ⟨d, hd, hdP⟩ := DisplayLastWin32Error_extends os g
        (h ++ [Event.ShellExecuteEx path params true] ++ [Event.GetExitCodeProcess none])
        "GetExitCodeProcess"
      rw [hd]
      refine ⟨c0, Event.ShellExecuteEx path params true :: Event.GetExitCodeProcess none :: d,
        by simp, ?_⟩
      intro e he
      simp only [List.mem_cons] at he
      rcases he with rfl | rfl | he
      · rfl
      · rfl
      · exact isDisplay_isQuiet g e (hdP e he)
    · left
      rename_i code
      exact ⟨dword code, by simp⟩

theorem RebootSystem_spec (os : OS) (g : Bool) (h : History) :
    ∃ ok d, RebootSystem os g h = (ok, h ++ Event.call Fn.RebootSystem :: d)
      ∧ ∀ e ∈ d, e.isReboot g = true := by
  have key : ∀ h2, Extends (Event.isReboot g) (h ++ [Event.call Fn.RebootSystem]) h2 →
      ∀ ok : Bool, ∃ (ok2 : Bool) (d : History),
        (ok, h2) = (ok2, h ++ Event.call Fn.RebootSystem :: d)
        ∧ ∀ e ∈ d, e.isReboot g = true := by
    intro h2 hx ok
    obtain ⟨d, rfl, hd⟩ := hx
    exact ⟨ok, d, by simp, hd⟩
  have disp : ∀ (h1 h2 : History) (f : String), Extends (Event.isReboot g) h1 h2 →
      Extends (Event.isReboot g) h1 (DisplayLastWin32Error os g h2 f) := by
    intro h1 h2 f hx
    exact hx.trans ((DisplayLastWin32Error_extends os g h2 f).mono (isDisplay_isReboot g))
  unfold RebootSystem
  dsimp only
  split
  · refine key _ ?_ _
    exact (Extends.refl _ _).snoc _ rfl
  · split
    · refine key _ ?_ _
      exact ((Extends.refl _ _).snoc _ rfl).snoc _ rfl
    · split
      · refine key _ (disp _ _ _ ?_) _
        exact ((((Extends.refl _ _).snoc _ rfl).snoc _ rfl).snoc _ rfl).snoc _ rfl
      · split
        · refine key _ (disp _ _ _ ?_) _
          exact (((((Extends.refl _ _).snoc _ rfl).snoc _ rfl).snoc _ rfl).snoc _ rfl).snoc
            _ rfl
        · refine key _ ?_ _
          exact (((((Extends.refl _ _).snoc _ rfl).snoc _ rfl).snoc _ rfl).snoc _ rfl).snoc
            _ rfl
/-! ## The dependency installer step -/

theorem isReboot_isPostRun (g : Bool) (e : Event) (he : e.isReboot g = true) :
    e.isPostRun g = true := by
  cases e <;> simp_all [Event.isDisplay, Event.isReboot, Event.isPostRun]

theorem isReboot_ne_call (g : Bool) (e : Event) (he : e.isReboot g = true) (f : Fn) :
    e ≠ Event.call f := by
  cases e <;> simp_all [Event.isDisplay, Event.isReboot]

theorem afterRun_spec (os : OS) (g p : Bool) (h : History) (code : Nat) :
    ∃ b post, RunDotNetInstaller.afterRun os g p h true code = (b, h ++ post)
      ∧ AfterRunFacts g p code b post := by
  unfold AfterRunFacts
  unfold RunDotNetInstaller.afterRun
  simp only [if_true]
  by_cases h0 : code = 0
  · subst h0
    exact ⟨true, [], by simp, by simp, by simp, by simp, by simp, by simp, by simp⟩
  · simp only [h0, if_false]
    by_cases hr : code = 1641 ∨ code = 3010
    · simp only [hr, if_true]
      have h1602 : code ≠ 1602 := by omega
      cases p
      · simp only [Bool.false_eq_true, if_false, MessageBox]
        generalize os.MessageBox h rebootPrompt "Reboot Required" (MB_YESNO ||| MB_ICONQUESTION)
          = ans
        by_cases hyes : ans = IDYES
        · simp only [hyes, if_true]
          generalize os.MessageBox _ "Please run setup again after the system restarts" _ _
            = ans2
          obtain ⟨ok, r, hr2, hrP⟩ := RebootSystem_spec os g
            (h ++ [Event.MessageBox rebootPrompt "Reboot Required"
              (MB_YESNO ||| MB_ICONQUESTION) IDYES]
              ++ [Event.MessageBox "Please run setup again after the system restarts"
                "Reboot Required" (MB_OK ||| MB_ICONINFORMATION) ans2])
          rw [hr2]
          cases ok
          · simp only [if_true]
            generalize os.MessageBox _ "Reboot failed. Please reboot manually." _ _ = ans3
            refine ⟨false, Event.MessageBox rebootPrompt "Reboot Required"
                (MB_YESNO ||| MB_ICONQUESTION) IDYES
              :: Event.MessageBox "Please run setup again after the system restarts"
                "Reboot Required" (MB_OK ||| MB_ICONINFORMATION) ans2
              :: Event.call Fn.RebootSystem :: (r ++ [Event.MessageBox
                "Reboot failed. Please reboot manually." "Fatal Error"
                (MB_OK ||| MB_ICONERROR) ans3]), by simp, ?_, by simp [h0], by simp [h0],
              ?_, by simp [h1602], by intro _ a b; omega⟩
            · intro e he
              simp only [List.mem_cons, List.mem_append, List.mem_singleton, List.not_mem_nil,
                or_false] at he
              rcases he with rfl | rfl | rfl | he | rfl
              · rfl
              · rfl
              · rfl
              · exact isReboot_isPostRun g e (hrP e he)
              · rfl
            · intro _
              exact ⟨by simp, fun _ => ⟨IDYES, _, rfl, by simp, fun hne => absurd rfl hne⟩⟩
          · simp only [Bool.true_eq_false, if_false]
            refine ⟨false, Event.MessageBox rebootPrompt "Reboot Required"
                (MB_YESNO ||| MB_ICONQUESTION) IDYES
              :: Event.MessageBox "Please run setup again after the system restarts"
                "Reboot Required" (MB_OK ||| MB_ICONINFORMATION) ans2
              :: Event.call Fn.RebootSystem :: r, by simp, ?_, by simp [h0], by simp [h0],
              ?_, by simp [h1602], by intro _ a b; omega⟩
            · intro e he
              simp only [List.mem_cons] at he
              rcases he with rfl | rfl | rfl | he
              · rfl
              · rfl
              · rfl
              · exact isReboot_isPostRun g e (hrP e he)
            · intro _
              exact ⟨by simp, fun _ => ⟨IDYES, _, rfl, by simp, fun hne => absurd rfl hne⟩⟩
        · simp only [hyes, if_false]
          generalize os.MessageBox _
            "Unable to continue. Please reboot the computer and run setup again" _ _ = ans2
          refine ⟨false, [Event.MessageBox rebootPrompt "Reboot Required"
                (MB_YESNO ||| MB_ICONQUESTION) ans,
              Event.MessageBox
                "Unable to continue. Please reboot the computer and run setup again"
                "Reboot Required" (MB_OK ||| MB_ICONWARNING) ans2], by simp, ?_, by simp [h0],
              by simp [h0], ?_, by simp [h1602], by intro _ a b; omega⟩
          · intro e he
            simp only [List.mem_cons, List.mem_singleton, List.not_mem_nil, or_false] at he
            rcases he with rfl | rfl <;> rfl
          · intro _
            exact ⟨by simp, fun _ => ⟨ans, _, rfl, by simp [hyes], by simp [Event.isMessageBox]⟩⟩
      · simp only [if_true]
        obtain ⟨ok, r, hr2, hrP⟩ := RebootSystem_spec os g h
        rw [hr2]
        refine ⟨false, Event.call Fn.RebootSystem :: r, rfl, ?_, by simp [h0], by simp [h0],
          ?_, by simp [h1602], by intro _ a b; omega⟩
        · intro e he
          simp only [List.mem_cons] at he
          rcases he with rfl | he
          · rfl
          · exact isReboot_isPostRun g e (hrP e he)
        · intro _
          exact ⟨fun _ => ⟨r, rfl⟩, by simp⟩
    · simp only [hr, if_false]
      by_cases hc : code = 1602
      · subst hc
        exact ⟨false, [], by simp, by simp, by simp, by simp, by simp, by simp, by simp⟩
      · simp only [hc, if_false, MessageBox]
        refine ⟨false, [Event.MessageBox dotNetFailedText "Fatal Error"
          (MB_OK ||| MB_ICONERROR) _], rfl, ?_, by simp [h0], by simp [h0],
          by simp [hr], by simp [hc], fun _ _ _ _ => ⟨_, rfl⟩⟩
        intro e he
        simp only [List.mem_singleton] at he
        subst he; rfl
theorem isPathQuery_isQuiet (g : Bool) (e : Event) (he : e.isPathQuery = true) :
    e.isQuiet g = true :=
  isAux_isQuiet g e (isPathQuery_isAux g e he)

theorem isQuiet_isQuietDep (g : Bool) (e : Event) (he : e.isQuiet g = true) :
    e.isQuietDep g = true := by
  cases e <;> simp_all [Event.isQuietDep, Event.isQuiet, Event.isAux, Event.isDisplay]

theorem Extends.after_marker {P : Event → Bool} {h h2 : History} {m : Event}
    (hx : Extends P (h ++ [m]) h2) : ∃ d, h2 = h ++ m :: d ∧ ∀ e ∈ d, P e = true := by
  obtain ⟨d, rfl, hd⟩ := hx
  exact ⟨d, by simp, hd⟩

/-- Shape of a run of `RunDotNetInstaller`: either no exit code was obtained and the
step failed, or the installer was found, launched and returned `code`. -/
theorem RunDotNetInstaller_spec (os : OS) (g p : Bool) (h : History) :
    ∃ b d, RunDotNetInstaller os g p h = some (b, h ++ Event.call Fn.RunDotNetInstaller :: d)
      ∧ DepShape g p b d := by
  unfold DepShape
  have fail : ∀ h2, Extends (Event.isQuietDep g) (h ++ [Event.call Fn.RunDotNetInstaller]) h2 →
      ∃ b d, some (false, h2) = some (b, h ++ Event.call Fn.RunDotNetInstaller :: d)
      ∧ ((b = false ∧ ∀ e ∈ d, e.isQuietDep g = true)
        ∨ ∃ d0 path attrs params code post,
            d = d0 ++ [Event.FindFirstFile path true, Event.GetFileAttributes path attrs,
              Event.ShellExecuteEx path params true, Event.GetExitCodeProcess (some code)]
              ++ post
            ∧ (∀ e ∈ d0, e.isPathQuery = true)
            ∧ AfterRunFacts g p code b post) := by
    intro h2 hx
    obtain ⟨d, rfl, hd⟩ := hx.after_marker
    exact ⟨false, d, rfl, Or.inl ⟨rfl, hd⟩⟩
  have q : ∀ {h1 h2 : History}, Extends Event.isPathQuery h1 h2 →
      Extends (Event.isQuietDep g) h1 h2 := fun hx =>
    hx.mono (fun e he => isQuiet_isQuietDep g e (isPathQuery_isQuiet g e he))
  unfold RunDotNetInstaller
  dsimp only
  obtain ⟨res, d0, hrun, hP0, hND⟩ := GetModulePath_spec os g
    (h ++ [Event.call Fn.RunDotNetInstaller])
  rw [hrun]
  cases res with
  | none =>
    dsimp only [MessageBox]
    refine fail _ (Extends.snoc ⟨d0, rfl, ?_⟩ _ rfl)
    exact fun e he => isQuiet_isQuietDep g e (isAux_isQuiet g e (hP0 e he))
  | some FilePath =>
    have hx0 : Extends Event.isPathQuery (h ++ [Event.call Fn.RunDotNetInstaller])
        (h ++ [Event.call Fn.RunDotNetInstaller] ++ d0) :=
      ⟨d0, rfl, fun e he => isPathQuery_of_isAux g e (hP0 e he) (hND (by simp) e he)⟩
    dsimp only
    have hx1 := hx0.trans (GetDirectoryName_extends os _ FilePath.text)
    generalize GetDirectoryName os (h ++ [Event.call Fn.RunDotNetInstaller] ++ d0)
      FilePath.text = dir at hx1 ⊢
    by_cases hdir : dir.1 = false
    · simp only [hdir, if_true, MessageBox]
      refine fail _ ?_
      exact Extends.snoc (q hx1) _ (by rfl)
    · simp only [hdir, if_false]
      have hx2 := hx1.trans (CombinePaths_extends os dir.2.2 dir.2.1 DotNetInstallerFileName)
      generalize CombinePaths os dir.2.2 dir.2.1 DotNetInstallerFileName = combined at hx2 ⊢
      obtain ⟨cp, hc⟩ := combined
      cases cp with
      | none =>
        simp only [MessageBox]
        refine fail _ ?_
        exact Extends.snoc (q hx2) _ (by rfl)
      | some InstallerPath =>
        simp only [FileExists, IsFile] at hx2 ⊢
        cases hfound : os.FindFirstFile hc InstallerPath
        · simp only [Bool.false_eq_true, if_false, MessageBox]
          refine fail _ ?_
          refine Extends.snoc (Extends.snoc (q hx2) _ ?_) _ ?_ <;> rfl
        · simp only [if_true]
          generalize dword (os.GetFileAttributes
            (hc ++ [Event.FindFirstFile InstallerPath true]) InstallerPath) = attrs
          by_cases hinv : attrs = INVALID_FILE_ATTRIBUTES
          · simp only [hinv, if_true, Bool.false_eq_true, if_false, MessageBox]
            refine fail _ ?_
            refine Extends.snoc (Extends.snoc (Extends.snoc (q hx2) _ ?_) _ ?_) _ ?_ <;> rfl
          · by_cases hisdir : attrs &&& FILE_ATTRIBUTE_DIRECTORY = 0
            · simp only [hinv, hisdir, if_true, if_false]
              generalize (if p = true then "/norestart /passive"
                else "/norestart /passive /showrmui") = params
              obtain ⟨d2, hd2, hP2⟩ := hx2.after_marker
              subst hd2
              rcases RunProgram_spec os g _ InstallerPath params (os.indeterminate _)
                with ⟨code, hrp⟩ | ⟨code, d3, hrp, hq⟩
              · rw [hrp]
                dsimp only
                obtain ⟨b, post, hafter, hfacts⟩ := afterRun_spec os g p
                  (h ++ Event.call Fn.RunDotNetInstaller :: d2
                    ++ [Event.FindFirstFile InstallerPath true]
                    ++ [Event.GetFileAttributes InstallerPath attrs]
                    ++ [Event.ShellExecuteEx InstallerPath params true,
                      Event.GetExitCodeProcess (some code)]) code
                rw [hafter]
                exact ⟨b, d2 ++ [Event.FindFirstFile InstallerPath true,
                    Event.GetFileAttributes InstallerPath attrs,
                    Event.ShellExecuteEx InstallerPath params true,
                    Event.GetExitCodeProcess (some code)] ++ post, by simp,
                  Or.inr ⟨d2, InstallerPath, attrs, params, code, post, rfl, hP2, hfacts⟩⟩
              · rw [hrp]
                simp only [RunDotNetInstaller.afterRun, Bool.false_eq_true, if_false]
                refine ⟨false, d2 ++ [Event.FindFirstFile InstallerPath true]
                    ++ [Event.GetFileAttributes InstallerPath attrs] ++ d3, by simp,
                  Or.inl ⟨rfl, ?_⟩⟩
                intro e he
                simp only [List.mem_append, List.mem_singleton] at he
                rcases he with ((he | rfl) | rfl) | he
                · exact isQuiet_isQuietDep g e (isPathQuery_isQuiet g e (hP2 e he))
                · rfl
                · rfl
                · exact isQuiet_isQuietDep g e (hq e he)
            · simp only [hinv, hisdir, if_false, Bool.false_eq_true, MessageBox]
              refine fail _ ?_
              refine Extends.snoc (Extends.snoc (Extends.snoc (q hx2) _ ?_) _ ?_) _ ?_ <;> rfl

/-! ## The product installer step -/

/-- Shape of a run of `RunEdkRepoInstaller`: either no exit code was obtained and the
step failed, or the installer was found, launched and returned `code`; the step then
succeeds exactly when `code` is 0. -/
theorem RunEdkRepoInstaller_spec (os : OS) (g p : Bool) (h : History) :
    ∃ b d, RunEdkRepoInstaller os g p h
        = some (b, h ++ Event.call Fn.RunEdkRepoInstaller :: d)
      ∧ ProductShape g b d := by
  unfold ProductShape
  have fail : ∀ h2, Extends (Event.isQuiet g) (h ++ [Event.call Fn.RunEdkRepoInstaller]) h2 →
      ∃ b d, some (false, h2) = some (b, h ++ Event.call Fn.RunEdkRepoInstaller :: d)
      ∧ ((b = false ∧ ∀ e ∈ d, e.isQuiet g = true)
        ∨ ∃ d0 path attrs params code,
            d = d0 ++ [Event.FindFirstFile path true, Event.GetFileAttributes path attrs,
              Event.ShellExecuteEx path params true, Event.GetExitCodeProcess (some code)]
            ∧ (∀ e ∈ d0, e.isPathQuery = true)
            ∧ attrs ≠ INVALID_FILE_ATTRIBUTES ∧ attrs &&& FILE_ATTRIBUTE_DIRECTORY = 0
            ∧ (b = true ↔ code = 0)) := by
    intro h2 hx
    obtain ⟨d, rfl, hd⟩ := hx.after_marker
    exact ⟨false, d, rfl, Or.inl ⟨rfl, hd⟩⟩
  have q : ∀ {h1 h2 : History}, Extends Event.isPathQuery h1 h2 →
      Extends (Event.isQuiet g) h1 h2 := fun hx =>
    hx.mono (fun e he => isPathQuery_isQuiet g e he)
  have disp : ∀ (h1 h2 : History) (m : String), Extends (Event.isQuiet g) h1 h2 →
      Extends (Event.isQuiet g) h1 (DisplayErrorMessage os g h2 m) := fun h1 h2 m hx =>
    hx.trans ((DisplayErrorMessage_extends os g h2 m).mono (isDisplay_isQuiet g))
  unfold RunEdkRepoInstaller
  dsimp only
  obtain ⟨res, d0, hrun, hP0, hND⟩ := GetModulePath_spec os g
    (h ++ [Event.call Fn.RunEdkRepoInstaller])
  rw [hrun]
  cases res with
  | none =>
    dsimp only
    exact fail _ (disp _ _ _ ⟨d0, rfl, fun e he => isAux_isQuiet g e (hP0 e he)⟩)
  | some FilePath =>
    have hx0 : Extends Event.isPathQuery (h ++ [Event.call Fn.RunEdkRepoInstaller])
        (h ++ [Event.call Fn.RunEdkRepoInstaller] ++ d0) :=
      ⟨d0, rfl, fun e he => isPathQuery_of_isAux g e (hP0 e he) (hND (by simp) e he)⟩
    dsimp only
    have hx1 := hx0.trans (GetDirectoryName_extends os _ FilePath.text)
    generalize GetDirectoryName os (h ++ [Event.call Fn.RunEdkRepoInstaller] ++ d0)
      FilePath.text = dir at hx1 ⊢
    by_cases hdir : dir.1 = false
    · simp only [hdir, if_true]
      exact fail _ (disp _ _ _ (q hx1))
    · simp only [hdir, if_false]
      have hx2 := hx1.trans (CombinePaths_extends os dir.2.2 dir.2.1 EdkRepoInstallerFileName)
      generalize CombinePaths os dir.2.2 dir.2.1 EdkRepoInstallerFileName = combined at hx2 ⊢
      obtain ⟨cp, hc⟩ := combined
      cases cp with
      | none =>
        dsimp only
        exact fail _ (disp _ _ _ (q hx2))
      | some InstallerPath =>
        simp only [FileExists, IsFile] at hx2 ⊢
        cases hfound : os.FindFirstFile hc InstallerPath
        · simp only [Bool.false_eq_true, if_false]
          refine fail _ (disp _ _ _ ?_)
          exact Extends.snoc (q hx2) _ (by rfl)
        · simp only [if_true]
          generalize dword (os.GetFileAttributes
            (hc ++ [Event.FindFirstFile InstallerPath true]) InstallerPath) = attrs
          by_cases hinv : attrs = INVALID_FILE_ATTRIBUTES
          · simp only [hinv, if_true, Bool.false_eq_true, if_false]
            refine fail _ (disp _ _ _ ?_)
            refine Extends.snoc (Extends.snoc (q hx2) _ ?_) _ ?_ <;> rfl
          · by_cases hisdir : attrs &&& FILE_ATTRIBUTE_DIRECTORY = 0
            · simp only [hinv, hisdir, if_true, if_false]
              generalize (if g = true then "/Silent /Passive"
                else if p = true then "/Passive" else "") = params
              obtain ⟨d2, hd2, hP2⟩ := hx2.after_marker
              subst hd2
              rcases RunProgram_spec os g _ InstallerPath params (os.indeterminate _)
                with ⟨code, hrp⟩ | ⟨code, d3, hrp, hq⟩
              · rw [hrp]
                simp only [Bool.true_eq_false, false_or, ne_eq]
                by_cases hcode : code = 0
                · simp only [hcode, not_true_eq_false, if_false]
                  exact ⟨true, d2 ++ [Event.FindFirstFile InstallerPath true,
                      Event.GetFileAttributes InstallerPath attrs,
                      Event.ShellExecuteEx InstallerPath params true,
                      Event.GetExitCodeProcess (some 0)], by simp,
                    Or.inr ⟨d2, InstallerPath, attrs, params, 0, rfl, hP2, hinv, hisdir,
                      by simp⟩⟩
                · simp only [hcode, not_false_eq_true, if_true]
                  exact ⟨false, d2 ++ [Event.FindFirstFile InstallerPath true,
                      Event.GetFileAttributes InstallerPath attrs,
                      Event.ShellExecuteEx InstallerPath params true,
                      Event.GetExitCodeProcess (some code)], by simp,
                    Or.inr ⟨d2, InstallerPath, attrs, params, code, rfl, hP2, hinv, hisdir,
                      by simp [hcode]⟩⟩
              · rw [hrp]
                simp only [true_or, if_true]
                refine ⟨false, d2 ++ [Event.FindFirstFile InstallerPath true]
                    ++ [Event.GetFileAttributes InstallerPath attrs] ++ d3, by simp,
                  Or.inl ⟨rfl, ?_⟩⟩
                intro e he
                simp only [List.mem_append, List.mem_singleton] at he
                rcases he with ((he | rfl) | rfl) | he
                · exact isPathQuery_isQuiet g e (hP2 e he)
                · rfl
                · rfl
                · exact hq e he
            · simp only [hinv, hisdir, if_false, Bool.false_eq_true]
              refine fail _ (disp _ _ _ ?_)
              refine Extends.snoc (Extends.snoc (q hx2) _ ?_) _ ?_ <;> rfl
/-! ## Consequences of the shapes -/

theorem isQuiet_isInStep (g : Bool) (e : Event) (he : e.isQuiet g = true) :
    e.isInStep g = true := by
  cases e <;> simp_all [Event.isQuiet, Event.isAux, Event.isDisplay, Event.isInStep]

theorem isQuietDep_isInStep (g : Bool) (e : Event) (he : e.isQuietDep g = true) :
    e.isInStep false = true := by
  cases e <;> simp_all [Event.isQuietDep, Event.isQuiet, Event.isAux, Event.isDisplay,
    Event.isInStep]

theorem isPathQuery_isInStep (g : Bool) (e : Event) (he : e.isPathQuery = true) :
    e.isInStep g = true := by
  cases e <;> simp_all [Event.isPathQuery, Event.isInStep]

theorem isPostRun_isInStep (g : Bool) (e : Event) (he : e.isPostRun g = true) :
    e.isInStep false = true := by
  cases e with
  | call f => cases f <;> simp_all [Event.isPostRun, Event.isReboot, Event.isDisplay,
      Event.isInStep]
  | MessageBox text caption uType answer =>
    simp only [Event.isPostRun, decide_eq_true_eq] at he
    rcases he with rfl | rfl <;> simp [Event.isInStep]
  | _ => simp_all [Event.isPostRun, Event.isReboot, Event.isDisplay, Event.isInStep]

theorem isQuiet_not_exit (g : Bool) (e : Event) (he : e.isQuiet g = true) (c : Nat) :
    e ≠ Event.GetExitCodeProcess (some c) := by
  cases e with
  | GetExitCodeProcess code =>
    cases code <;> simp_all [Event.isQuiet, Event.isAux, Event.isDisplay]
  | _ => simp_all [Event.isQuiet, Event.isAux, Event.isDisplay]

theorem isQuietDep_not_exit (g : Bool) (e : Event) (he : e.isQuietDep g = true) (c : Nat) :
    e ≠ Event.GetExitCodeProcess (some c) := by
  cases e with
  | GetExitCodeProcess code =>
    cases code <;> simp_all [Event.isQuietDep, Event.isQuiet, Event.isAux, Event.isDisplay]
  | _ => simp_all [Event.isQuietDep, Event.isQuiet, Event.isAux, Event.isDisplay]

theorem isPathQuery_not_exit (e : Event) (he : e.isPathQuery = true) (c : Option Nat) :
    e ≠ Event.GetExitCodeProcess c := by
  cases e <;> simp_all [Event.isPathQuery]

theorem isPostRun_not_exit (g : Bool) (e : Event) (he : e.isPostRun g = true) (c : Option Nat) :
    e ≠ Event.GetExitCodeProcess c := by
  cases e <;> simp_all [Event.isPostRun, Event.isReboot, Event.isDisplay]

theorem ProductShape.inStep {g b : Bool} {d : History} (hs : ProductShape g b d) :
    ∀ e ∈ d, e.isInStep g = true := by
  rcases hs with ⟨_, hq⟩ | ⟨d0, path, attrs, params, code, rfl, hP, _, _, _⟩
  · exact fun e he => isQuiet_isInStep g e (hq e he)
  · intro e he
    simp only [List.mem_append, List.mem_cons, List.mem_singleton, List.not_mem_nil,
      or_false] at he
    rcases he with he | rfl | rfl | rfl | rfl
    · exact isPathQuery_isInStep g e (hP e he)
    all_goals rfl

theorem ProductShape.success_iff {g b : Bool} {d : History} (hs : ProductShape g b d) :
    b = true ↔ Event.GetExitCodeProcess (some 0) ∈ d := by
  rcases hs with ⟨hb, hq⟩ | ⟨d0, path, attrs, params, code, rfl, hP, _, _, hb⟩
  · subst hb
    simp only [Bool.false_eq_true, false_iff]
    exact fun hmem => isQuiet_not_exit g _ (hq _ hmem) 0 rfl
  · rw [hb]
    constructor
    · rintro rfl; simp
    · intro hmem
      simp only [List.mem_append, List.mem_cons, List.mem_singleton, List.not_mem_nil,
        or_false, Event.GetExitCodeProcess.injEq, Option.some.injEq, reduceCtorEq,
        false_or] at hmem
      rcases hmem with hmem | hmem
      · exact absurd rfl (isPathQuery_not_exit _ (hP _ hmem) (some 0))
      · exact hmem.symm

theorem ProductShape.found {g b : Bool} {d : History} (hs : ProductShape g b d)
    (hb : b = true) : foundFile d ∧ launched d := by
  rcases hs with ⟨hb2, _⟩ | ⟨d0, path, attrs, params, code, rfl, _, h1, h2, _⟩
  · rw [hb] at hb2; exact absurd hb2 (by simp)
  · exact ⟨⟨path, attrs, by simp, by simp, h1, h2⟩, ⟨path, params, by simp⟩⟩

theorem DepShape.dep_inStep {g p b : Bool} {d : History} (hs : DepShape g p b d) :
    ∀ e ∈ d, e.isInStep false = true := by
  rcases hs with ⟨_, hq⟩ | ⟨d0, path, attrs, params, code, post, rfl, hP, hpost, _⟩
  · exact fun e he => isQuietDep_isInStep g e (hq e he)
  · intro e he
    simp only [List.mem_append, List.mem_cons, List.mem_singleton, List.not_mem_nil,
      or_false] at he
    rcases he with (he | rfl | rfl | rfl | rfl) | he
    · exact isPathQuery_isInStep false e (hP e he)
    · rfl
    · rfl
    · rfl
    · rfl
    · exact isPostRun_isInStep g e (hpost e he)

theorem DepShape.dep_succeeds_iff {g p b : Bool} {d : History} (hs : DepShape g p b d) :
    b = true ↔ Event.GetExitCodeProcess (some 0) ∈ d := by
  rcases hs with ⟨hb, hq⟩ | ⟨d0, path, attrs, params, code, post, rfl, hP, hpost, hb, _⟩
  · subst hb
    simp only [Bool.false_eq_true, false_iff]
    exact fun hmem => isQuietDep_not_exit g _ (hq _ hmem) 0 rfl
  · rw [hb]
    constructor
    · rintro rfl; simp
    · intro hmem
      simp only [List.mem_append, List.mem_cons, List.mem_singleton, List.not_mem_nil,
        or_false, Event.GetExitCodeProcess.injEq, Option.some.injEq, reduceCtorEq,
        false_or] at hmem
      rcases hmem with (hmem | hmem) | hmem
      · exact absurd rfl (isPathQuery_not_exit _ (hP _ hmem) (some 0))
      · exact hmem.symm
      · exact absurd rfl (isPostRun_not_exit g _ (hpost _ hmem) (some 0))

theorem DepShape.launched_of_success {g p b : Bool} {d : History} (hs : DepShape g p b d)
    (hb : b = true) : launched d := by
  rcases hs with ⟨hb2, _⟩ | ⟨d0, path, attrs, params, code, post, rfl, _, _, _⟩
  · rw [hb] at hb2; exact absurd hb2 (by simp)
  · exact ⟨path, params, by simp⟩
/-! ## The runs of `_tWinMain` -/

theorem attach_spec (os : OS) (S : Bool) :
    ∃ a, (_tWinMain.attach os S []).2 = a
      ∧ (∀ e ∈ a, (∃ ok, e = Event.AttachConsole ok) ∨ ∃ s, e = Event.GetStdHandle s)
      ∧ (Event.AttachConsole false ∈ a → (_tWinMain.attach os S []).1 = NULL) := by
  unfold _tWinMain.attach
  cases S
  · exact ⟨[], rfl, by simp, by simp⟩
  · simp only [if_true, List.nil_append]
    cases hok : os.AttachConsole []
    · exact ⟨_, rfl, by simp, by simp⟩
    · exact ⟨_, rfl, by simp, by simp⟩

theorem detect_spec (os : OS) (a : History) :
    ∃ dt, (_tWinMain.detect os a).2 = a ++ dt
      ∧ ((dt = [Event.IsNetfx452Installed false] ∧ (_tWinMain.detect os a).1 = false)
        ∨ (dt = [Event.IsNetfx452Installed true,
              Event.CheckNetfxVersionUsingMscoree (_tWinMain.detect os a).1])) := by
  unfold _tWinMain.detect
  dsimp only
  cases hi : os.IsNetfx452Installed a
  · exact ⟨_, rfl, Or.inl ⟨rfl, rfl⟩⟩
  · simp only [if_true]
    exact ⟨_, by simp, Or.inr rfl⟩

theorem startup_spec (os : OS) (S : Bool) :
    ∃ st, (_tWinMain.detect os (_tWinMain.attach os S []).2).2 = st
      ∧ (∀ e ∈ st, e.isStartup = true)
      ∧ ((_tWinMain.detect os (_tWinMain.attach os S []).2).1 = true ↔ dependencyPresent st)
      ∧ (Event.AttachConsole false ∈ st → (_tWinMain.attach os S []).1 = NULL) := by
  obtain ⟨a, ha, haP, hnull⟩ := attach_spec os S
  obtain ⟨dt, hdt, hcase⟩ := detect_spec os (_tWinMain.attach os S []).2
  rw [ha] at hdt hcase
  refine ⟨a ++ dt, by rw [ha, hdt], ?_, ?_, ?_⟩
  · intro e he
    rcases List.mem_append.mp he with he | he
    · rcases haP e he with ⟨ok, rfl⟩ | ⟨s, rfl⟩ <;> rfl
    · rcases hcase with ⟨rfl, _⟩ | rfl
      · simp only [List.mem_singleton] at he; subst he; rfl
      · simp only [List.mem_cons, List.mem_singleton, List.not_mem_nil, or_false] at he
        rcases he with rfl | rfl <;> rfl
  · have hno1 : ∀ v, Event.IsNetfx452Installed v ∉ a := by
      intro v hv
      rcases haP _ hv with ⟨ok, hx⟩ | ⟨s, hx⟩ <;> cases hx
    have hno2 : ∀ v, Event.CheckNetfxVersionUsingMscoree v ∉ a := by
      intro v hv
      rcases haP _ hv with ⟨ok, hx⟩ | ⟨s, hx⟩ <;> cases hx
    unfold dependencyPresent
    rw [ha]
    rcases hcase with ⟨rfl, hf⟩ | hd
    · simp [hf, hno1, hno2]
    · rw [hd]
      simp [hno1, hno2]
  · intro hmem
    apply hnull
    rcases List.mem_append.mp hmem with hmem | hmem
    · exact hmem
    · rcases hcase with ⟨rfl, _⟩ | rfl <;> simp at hmem

theorem product_spec (os : OS) (g p : Bool) (h : History) :
    ∃ b2 d2, ProductShape g b2 d2
      ∧ _tWinMain.product os g p h
        = some ⟨if b2 then 0 else 1, h ++ Event.call Fn.RunEdkRepoInstaller :: d2⟩ := by
  obtain ⟨b, d, hrun, hs⟩ := RunEdkRepoInstaller_spec os g p h
  unfold _tWinMain.product
  rw [hrun]
  cases b
  · exact ⟨false, d, hs, rfl⟩
  · exact ⟨true, d, hs, rfl⟩

theorem dependency_spec (os : OS) (g p : Bool) (h : History) :
    ∃ b d, DepShape g p b d
      ∧ ((b = false ∧ _tWinMain.dependency os g p h
            = some ⟨1, h ++ Event.call Fn.RunDotNetInstaller :: d⟩)
        ∨ (b = true ∧ ∃ b2 d2, ProductShape g b2 d2
            ∧ _tWinMain.dependency os g p h
              = some ⟨if b2 then 0 else 1, h ++ Event.call Fn.RunDotNetInstaller :: d
                  ++ Event.call Fn.RunEdkRepoInstaller :: d2⟩)) := by
  obtain ⟨b, d, hrun, hs⟩ := RunDotNetInstaller_spec os g p h
  unfold _tWinMain.dependency
  rw [hrun]
  cases b
  · exact ⟨false, d, hs, Or.inl ⟨rfl, rfl⟩⟩
  · obtain ⟨b2, d2, hs2, hp⟩ := product_spec os g p
      (h ++ Event.call Fn.RunDotNetInstaller :: d)
    exact ⟨true, d, hs, Or.inr ⟨rfl, b2, d2, hs2, hp⟩⟩

/-- Every run of `_tWinMain` returns, and goes one of the four ways of `RunCases`. -/
theorem _tWinMain_cases (os : OS) (argv : List String) :
    ∃ r st present, _tWinMain os argv = some r
      ∧ (∀ e ∈ st, e.isStartup = true)
      ∧ (present = true ↔ dependencyPresent st)
      ∧ RunCases os (_tWinMain.scan argv false false).1 (_tWinMain.scan argv false false).2
          st present r := by
  unfold _tWinMain
  dsimp only
  generalize (_tWinMain.scan argv false false).1 = P
  generalize (_tWinMain.scan argv false false).2 = S
  obtain ⟨st, hst, hstP, hpres, hnull⟩ := startup_spec os S
  rw [hst]
  generalize (_tWinMain.detect os (_tWinMain.attach os S []).2).1 = present at hpres ⊢
  generalize (_tWinMain.attach os S []).1 = StdOut at hnull ⊢
  cases present
  · simp only [if_true]
    cases S
    · simp only [Bool.false_eq_true, if_false]
      cases P
      · simp only [if_true, MessageBox]
        generalize os.MessageBox st installPrompt "Setup" (MB_YESNO ||| MB_ICONQUESTION) = ans
        by_cases hyes : ans = IDYES
        · subst hyes
          simp only [ne_eq, not_true_eq_false, if_false]
          obtain ⟨b, d, hs, hcase⟩ := dependency_spec os false false
            (st ++ [installDialog IDYES])
          rcases hcase with ⟨hb, hrun⟩ | ⟨hb, b2, d2, hs2, hrun⟩
          · unfold installDialog at hrun
            rw [hrun]
            refine ⟨_, st, false, rfl, hstP, hpres, ?_⟩
            unfold RunCases
            exact Or.inr (Or.inr (Or.inl ⟨rfl, rfl,
              [installDialog IDYES], b, d, Or.inr ⟨rfl, rfl⟩, hs, Or.inl ⟨hb, rfl⟩⟩))
          · unfold installDialog at hrun
            rw [hrun]
            refine ⟨_, st, false, rfl, hstP, hpres, ?_⟩
            unfold RunCases
            exact Or.inr (Or.inr (Or.inl ⟨rfl, rfl,
              [installDialog IDYES], b, d, Or.inr ⟨rfl, rfl⟩, hs,
              Or.inr ⟨hb, b2, d2, hs2, rfl⟩⟩))
        · simp only [ne_eq, hyes, not_false_eq_true, if_true]
          refine ⟨_, st, false, rfl, hstP, hpres, ?_⟩
          unfold RunCases
          exact Or.inr (Or.inl ⟨rfl, rfl, rfl, ans, hyes,
            rfl⟩)
      · simp only [Bool.true_eq_false, if_false]
        obtain ⟨b, d, hs, hcase⟩ := dependency_spec os false true st
        rcases hcase with ⟨hb, hrun⟩ | ⟨hb, b2, d2, hs2, hrun⟩
        · rw [hrun]
          refine ⟨_, st, false, rfl, hstP, hpres, ?_⟩
          unfold RunCases
          exact Or.inr (Or.inr (Or.inl ⟨rfl, rfl,
            [], b, d, Or.inl ⟨rfl, rfl⟩, hs, Or.inl ⟨hb, by simp⟩⟩))
        · rw [hrun]
          refine ⟨_, st, false, rfl, hstP, hpres, ?_⟩
          unfold RunCases
          exact Or.inr (Or.inr (Or.inl ⟨rfl, rfl,
            [], b, d, Or.inl ⟨rfl, rfl⟩, hs, Or.inr ⟨hb, b2, d2, hs2, by simp⟩⟩))
    · simp only [if_true]
      by_cases hs : StdOut = NULL
      · simp only [ne_eq, hs, not_true_eq_false, if_false]
        refine ⟨_, st, false, rfl, hstP, hpres, ?_⟩
        unfold RunCases
        exact Or.inl ⟨rfl, rfl, [], by simp, Or.inl rfl⟩
      · simp only [ne_eq, hs, not_false_eq_true, if_true]
        refine ⟨_, st, false, rfl, hstP, hpres, ?_⟩
        unfold RunCases
        exact Or.inl ⟨rfl, rfl, _, rfl,
          Or.inr ⟨StdOut, hs, fun hmem => hs (hnull hmem), rfl⟩⟩
  · simp only [Bool.true_eq_false, if_false]
    obtain ⟨b2, d2, hs2, hp⟩ := product_spec os S P st
    rw [hp]
    refine ⟨_, st, true, rfl, hstP, hpres, ?_⟩
    unfold RunCases
    exact Or.inr (Or.inr (Or.inr ⟨rfl, b2, d2, hs2, rfl⟩))
/-! ## Exit code -/

theorem not_mem_of_class {P : Event → Bool} {l : History} (hl : ∀ e ∈ l, P e = true)
    {x : Event} (hx : P x = false) : x ∉ l := by
  intro hmem
  rw [hl x hmem] at hx
  exact absurd hx (by simp)

theorem product_at_end {g b2 : Bool} {pre0 d2 : History}
    (hpre : Event.call Fn.RunEdkRepoInstaller ∉ pre0) (hs : ProductShape g b2 d2) :
    b2 = true ↔ ∃ pre post, pre0 ++ Event.call Fn.RunEdkRepoInstaller :: d2
        = pre ++ Event.call Fn.RunEdkRepoInstaller :: post
      ∧ foundFile post ∧ launched post ∧ Event.GetExitCodeProcess (some 0) ∈ post := by
  constructor
  · intro hb
    exact ⟨pre0, d2, rfl, (hs.found hb).1, (hs.found hb).2, hs.success_iff.mp hb⟩
  · rintro ⟨pre, post, heq, _, _, hmem⟩
    have hd2 : Event.call Fn.RunEdkRepoInstaller ∉ d2 := not_mem_of_class hs.inStep (by rfl)
    obtain ⟨_, _, rfl⟩ := (List.append_cons_inj_of_not_mem hpre hd2).mp heq
    exact hs.success_iff.mpr hmem

theorem no_product_marker {tr : History} (hno : Event.call Fn.RunEdkRepoInstaller ∉ tr) :
    ¬ ∃ pre post, tr = pre ++ Event.call Fn.RunEdkRepoInstaller :: post
      ∧ foundFile post ∧ launched post ∧ Event.GetExitCodeProcess (some 0) ∈ post := by
  rintro ⟨pre, post, rfl, _⟩
  exact hno (by simp)

theorem ite_exit_eq_zero (b : Bool) : (if b = true then 0 else 1 : Nat) = 0 ↔ b = true := by
  cases b <;> simp

theorem ite_exit_cases (b : Bool) :
    (if b = true then 0 else 1 : Nat) = 0 ∨ (if b = true then 0 else 1 : Nat) = 1 := by
  cases b <;> simp

theorem marker_not_mem_before_product {P : Bool} {st bx d : History} {b : Bool}
    (hst : ∀ e ∈ st, e.isStartup = true)
    (hbx : (P = true ∧ bx = []) ∨ (P = false ∧ bx = [installDialog IDYES]))
    (hd : DepShape false P b d) :
    Event.call Fn.RunEdkRepoInstaller ∉ st ++ bx ++ Event.call Fn.RunDotNetInstaller :: d := by
  intro hmem
  simp only [List.mem_append, List.mem_cons] at hmem
  rcases hmem with (hmem | hmem) | hmem | hmem
  · exact not_mem_of_class hst (by rfl) hmem
  · rcases hbx with ⟨_, rfl⟩ | ⟨_, rfl⟩
    · simp at hmem
    · simp [installDialog] at hmem
  · cases hmem
  · exact not_mem_of_class hd.dep_inStep (by rfl) hmem

/-- C1. Every run of `_tWinMain` ends with exit code 0 or 1, and the code is 0 exactly when
the product step (the events after the entry of `RunEdkRepoInstaller`) found its file,
launched the installer successfully and read exit code 0 from it. -/
theorem exit_code_zero_iff_product_succeeded (os : OS) (argv : List String) :
    ∃ r, _tWinMain os argv = some r
      ∧ (r.exitCode = 0 ∨ r.exitCode = 1)
      ∧ (r.exitCode = 0 ↔
          ∃ pre post, r.trace = pre ++ Event.call Fn.RunEdkRepoInstaller :: post
            ∧ foundFile post ∧ launched post
            ∧ Event.GetExitCodeProcess (some 0) ∈ post) := by
  obtain ⟨r, st, present, hrun, hst, _, hcases⟩ := _tWinMain_cases os argv
  refine ⟨r, hrun, ?_⟩
  rcases hcases with ⟨_, _, w, rfl, hw⟩ | ⟨_, _, _, ans, _, rfl⟩
    | ⟨_, _, bx, b, d, hbx, hd, ⟨_, rfl⟩ | ⟨_, b2, d2, hs2, rfl⟩⟩ | ⟨_, b2, d2, hs2, rfl⟩
  · refine ⟨Or.inr rfl, ?_⟩
    simp only [one_ne_zero, false_iff]
    apply no_product_marker
    intro hmem
    rcases List.mem_append.mp hmem with hmem | hmem
    · exact not_mem_of_class hst (by rfl) hmem
    · rcases hw with rfl | ⟨s, _, _, rfl⟩ <;> simp at hmem
  · refine ⟨Or.inr rfl, ?_⟩
    simp only [one_ne_zero, false_iff]
    apply no_product_marker
    intro hmem
    rcases List.mem_append.mp hmem with hmem | hmem
    · exact not_mem_of_class hst (by rfl) hmem
    · simp [installDialog] at hmem
  · refine ⟨Or.inr rfl, ?_⟩
    simp only [one_ne_zero, false_iff]
    exact no_product_marker (marker_not_mem_before_product hst hbx hd)
  · refine ⟨ite_exit_cases b2, ?_⟩
    rw [ite_exit_eq_zero]
    exact product_at_end (marker_not_mem_before_product hst hbx hd) hs2
  · refine ⟨ite_exit_cases b2, ?_⟩
    rw [ite_exit_eq_zero]
    exact product_at_end (not_mem_of_class hst (by rfl)) hs2
/-! ## Which installer runs -/

theorem isInStep_not_detect (g : Bool) (e : Event) (he : e.isInStep g = true) (v : Bool) :
    e ≠ Event.IsNetfx452Installed v ∧ e ≠ Event.CheckNetfxVersionUsingMscoree v := by
  cases e <;> simp_all [Event.isInStep]

theorem isInStep_not_dialog (g : Bool) (e : Event) (he : e.isInStep g = true) (ans : Nat) :
    e ≠ installDialog ans := by
  cases e <;> simp_all [Event.isInStep, installDialog]

theorem isInStep_silent_not_box (e : Event) (he : e.isInStep true = true) :
    e.isMessageBox = false := by
  cases e <;> simp_all [Event.isInStep, Event.isMessageBox]

theorem isStartup_not_box (e : Event) (he : e.isStartup = true) :
    e.isMessageBox = false ∧ e.isWriteConsole = false ∧ e.isShellExecuteEx = false := by
  cases e <;> simp_all [Event.isStartup, Event.isMessageBox, Event.isWriteConsole,
    Event.isShellExecuteEx]

theorem dependencyPresent_append (st rest : History)
    (hrest : ∀ e ∈ rest, ∀ v, e ≠ Event.IsNetfx452Installed v
      ∧ e ≠ Event.CheckNetfxVersionUsingMscoree v) :
    dependencyPresent (st ++ rest) ↔ dependencyPresent st := by
  unfold dependencyPresent
  simp only [List.mem_append]
  constructor
  · rintro ⟨h1 | h1, h2 | h2⟩
    · exact ⟨h1, h2⟩
    · exact absurd rfl (hrest _ h2 true).2
    · exact absurd rfl (hrest _ h1 true).1
    · exact absurd rfl (hrest _ h1 true).1
  · rintro ⟨h1, h2⟩
    exact ⟨Or.inl h1, Or.inl h2⟩

/-- No installer was attempted: neither step was entered and nothing was launched. -/
theorem noInstaller_of_startup {st w : History} (hst : ∀ e ∈ st, e.isStartup = true)
    (hw : ∀ e ∈ w, e.isMessageBox = true ∨ e.isWriteConsole = true) :
    Event.call Fn.RunDotNetInstaller ∉ st ++ w ∧ Event.call Fn.RunEdkRepoInstaller ∉ st ++ w
      ∧ ∀ e ∈ st ++ w, e.isShellExecuteEx = false := by
  refine ⟨?_, ?_, ?_⟩
  · intro hmem
    rcases List.mem_append.mp hmem with hmem | hmem
    · exact not_mem_of_class hst (by rfl) hmem
    · rcases hw _ hmem with h | h <;> simp [Event.isMessageBox, Event.isWriteConsole] at h
  · intro hmem
    rcases List.mem_append.mp hmem with hmem | hmem
    · exact not_mem_of_class hst (by rfl) hmem
    · rcases hw _ hmem with h | h <;> simp [Event.isMessageBox, Event.isWriteConsole] at h
  · intro e hmem
    rcases List.mem_append.mp hmem with hmem | hmem
    · exact (isStartup_not_box e (hst e hmem)).2.2
    · rcases hw _ hmem with h | h <;> cases e <;>
        simp_all [Event.isMessageBox, Event.isWriteConsole, Event.isShellExecuteEx]

theorem steps_not_detect {P b b2 g : Bool} {bx d d2 : History}
    (hbx : (P = true ∧ bx = []) ∨ (P = false ∧ bx = [installDialog IDYES]))
    (hd : DepShape false P b d) (hd2 : ProductShape g b2 d2) :
    (∀ e ∈ bx ++ Event.call Fn.RunDotNetInstaller :: d, ∀ v,
      e ≠ Event.IsNetfx452Installed v ∧ e ≠ Event.CheckNetfxVersionUsingMscoree v)
    ∧ (∀ e ∈ bx ++ Event.call Fn.RunDotNetInstaller :: d
        ++ Event.call Fn.RunEdkRepoInstaller :: d2, ∀ v,
      e ≠ Event.IsNetfx452Installed v ∧ e ≠ Event.CheckNetfxVersionUsingMscoree v) := by
  have hbx2 : ∀ e ∈ bx, ∀ v, e ≠ Event.IsNetfx452Installed v
      ∧ e ≠ Event.CheckNetfxVersionUsingMscoree v := by
    intro e he v
    rcases hbx with ⟨_, rfl⟩ | ⟨_, rfl⟩
    · simp at he
    · simp only [List.mem_singleton] at he; subst he; simp [installDialog]
  constructor
  · intro e he v
    simp only [List.mem_append, List.mem_cons] at he
    rcases he with he | rfl | he
    · exact hbx2 e he v
    · simp
    · exact isInStep_not_detect false e (hd.dep_inStep e he) v
  · intro e he v
    simp only [List.mem_append, List.mem_cons] at he
    rcases he with (he | rfl | he) | rfl | he
    · exact hbx2 e he v
    · simp
    · exact isInStep_not_detect false e (hd.dep_inStep e he) v
    · simp
    · exact isInStep_not_detect g e (hd2.inStep e he) v

/-- C5, refuted as stated: in Silent mode with the dependency present the product
installer is launched and the process exits with code 0. -/
theorem silent_run_can_install :
    (_tWinMain.scan ["SetupLauncher.exe", "/silent"] false false).2 = true
    ∧ ∃ r, _tWinMain osAllGood ["SetupLauncher.exe", "/silent"] = some r
      ∧ dependencyPresent r.trace
      ∧ r.exitCode = 0
      ∧ Event.call Fn.RunDotNetInstaller ∉ r.trace
      ∧ Event.call Fn.RunEdkRepoInstaller ∈ r.trace
      ∧ (r.trace.any Event.isShellExecuteEx) = true :=
  ⟨by decide, _, rfl, by decide, by decide, by decide, by decide, by decide⟩

/-- C5, amended. `RunDotNetInstaller` is entered exactly when the dependency predicate is
false, the mode is not Silent and either the mode is Passive or the "Install now?" dialog
was answered Yes.  It is never entered when the predicate is true, never in Silent mode,
never after the user declines.  After the user declines, and in Silent mode with the
predicate false, the process exits with code 1 and no installer is attempted (no step is
entered, nothing is launched). -/
theorem dependency_step_invoked_iff (os : OS) (argv : List String) :
    ∃ r, _tWinMain os argv = some r
      ∧ (Event.call Fn.RunDotNetInstaller ∈ r.trace ↔
          ¬ dependencyPresent r.trace ∧ (_tWinMain.scan argv false false).2 = false
          ∧ ((_tWinMain.scan argv false false).1 = true ∨ installDialog IDYES ∈ r.trace))
      ∧ (dependencyPresent r.trace → Event.call Fn.RunDotNetInstaller ∉ r.trace)
      ∧ ((_tWinMain.scan argv false false).2 = true →
          Event.call Fn.RunDotNetInstaller ∉ r.trace)
      ∧ (∀ ans, ans ≠ IDYES → installDialog ans ∈ r.trace →
          r.exitCode = 1 ∧ Event.call Fn.RunDotNetInstaller ∉ r.trace
          ∧ Event.call Fn.RunEdkRepoInstaller ∉ r.trace
          ∧ ∀ e ∈ r.trace, e.isShellExecuteEx = false)
      ∧ ((_tWinMain.scan argv false false).2 = true → ¬ dependencyPresent r.trace →
          r.exitCode = 1 ∧ Event.call Fn.RunDotNetInstaller ∉ r.trace
          ∧ Event.call Fn.RunEdkRepoInstaller ∉ r.trace
          ∧ ∀ e ∈ r.trace, e.isShellExecuteEx = false) := by
  obtain ⟨r, st, present, hrun, hst, hpres, hcases⟩ := _tWinMain_cases os argv
  refine ⟨r, hrun, ?_⟩
  generalize (_tWinMain.scan argv false false).1 = P at hcases ⊢
  generalize (_tWinMain.scan argv false false).2 = S at hcases ⊢
  have hstbox : ∀ ans, installDialog ans ∉ st := fun ans hmem => by
    have := (isStartup_not_box _ (hst _ hmem)).1
    simp [installDialog, Event.isMessageBox] at this
  rcases hcases with ⟨hS, hp, w, rfl, hw⟩ | ⟨hS, hP, hp, ans, hans, rfl⟩
    | ⟨hS, hp, bx, b, d, hbx, hd, hrest⟩ | ⟨hp, b2, d2, hs2, rfl⟩
  · -- Silent, dependency absent
    have hw2 : ∀ e ∈ w, e.isMessageBox = true ∨ e.isWriteConsole = true := by
      rcases hw with rfl | ⟨s, _, _, rfl⟩
      · simp
      · intro e he; simp only [List.mem_singleton] at he; subst he; exact Or.inr rfl
    obtain ⟨n1, n2, n3⟩ := noInstaller_of_startup hst hw2
    have hnd : ¬ dependencyPresent (st ++ w) := by
      rw [dependencyPresent_append]
      · rw [← hpres, hp]; simp
      · intro e he v
        rcases hw2 e he with h | h <;> cases e <;>
          simp_all [Event.isMessageBox, Event.isWriteConsole]
    subst hS
    refine ⟨?_, fun _ => n1, fun _ => n1, ?_, fun _ _ => ⟨rfl, n1, n2, n3⟩⟩
    · simp [n1]
    · intro ans _ hmem
      exact ⟨rfl, n1, n2, n3⟩
  · -- Interactive, the user declined
    have hw2 : ∀ e ∈ [installDialog ans], e.isMessageBox = true ∨ e.isWriteConsole = true := by
      intro e he; simp only [List.mem_singleton] at he; subst he; exact Or.inl rfl
    obtain ⟨n1, n2, n3⟩ := noInstaller_of_startup hst hw2
    subst hS; subst hP
    refine ⟨?_, fun _ => n1, fun _ => n1, fun _ _ _ => ⟨rfl, n1, n2, n3⟩,
      fun h => absurd h (by simp)⟩
    simp only [n1, false_iff, not_and, Bool.false_eq_true, false_or, true_and]
    intro _ hmem
    rcases List.mem_append.mp hmem with hmem | hmem
    · exact hstbox _ hmem
    · simp only [List.mem_singleton, installDialog, Event.MessageBox.injEq, true_and] at hmem
      exact hans hmem.symm
  · -- the dependency step runs
    subst hS
    have key : ∀ tail : History,
        (∀ e ∈ bx ++ Event.call Fn.RunDotNetInstaller :: d ++ tail, ∀ v,
          e ≠ Event.IsNetfx452Installed v ∧ e ≠ Event.CheckNetfxVersionUsingMscoree v) →
        (∀ e ∈ tail, ∀ ans, e ≠ installDialog ans) →
        r.trace = st ++ bx ++ Event.call Fn.RunDotNetInstaller :: d ++ tail →
        (Event.call Fn.RunDotNetInstaller ∈ r.trace ↔
          ¬ dependencyPresent r.trace ∧ false = false
          ∧ (P = true ∨ installDialog IDYES ∈ r.trace))
        ∧ (dependencyPresent r.trace → Event.call Fn.RunDotNetInstaller ∉ r.trace)
        ∧ (false = true → Event.call Fn.RunDotNetInstaller ∉ r.trace)
        ∧ (∀ ans, ans ≠ IDYES → installDialog ans ∈ r.trace →
            r.exitCode = 1 ∧ Event.call Fn.RunDotNetInstaller ∉ r.trace
            ∧ Event.call Fn.RunEdkRepoInstaller ∉ r.trace
            ∧ ∀ e ∈ r.trace, e.isShellExecuteEx = false)
        ∧ (false = true → ¬ dependencyPresent r.trace →
            r.exitCode = 1 ∧ Event.call Fn.RunDotNetInstaller ∉ r.trace
            ∧ Event.call Fn.RunEdkRepoInstaller ∉ r.trace
            ∧ ∀ e ∈ r.trace, e.isShellExecuteEx = false) := by
      intro tail htail hdlg htr
      have hmem1 : Event.call Fn.RunDotNetInstaller ∈ r.trace := by rw [htr]; simp
      have hnd : ¬ dependencyPresent r.trace := by
        rw [htr, List.append_assoc, List.append_assoc, dependencyPresent_append]
        · rw [← hpres, hp]; simp
        · simpa [List.append_assoc] using htail
      refine ⟨?_, fun h => absurd h hnd, fun h => absurd h (by simp), ?_,
        fun h => absurd h (by simp)⟩
      · simp only [hmem1, hnd, not_false_eq_true, true_and, true_iff]
        rcases hbx with ⟨hP, _⟩ | ⟨_, rfl⟩
        · exact Or.inl hP
        · right; rw [htr]; simp
      · intro ans hans hmem
        exfalso
        rw [htr] at hmem
        simp only [List.mem_append, List.mem_cons] at hmem
        rcases hmem with ((hmem | hmem) | hmem | hmem) | hmem
        · exact hstbox _ hmem
        · rcases hbx with ⟨_, rfl⟩ | ⟨_, rfl⟩
          · simp at hmem
          · simp only [List.mem_singleton, installDialog, Event.MessageBox.injEq,
              true_and] at hmem
            exact hans hmem
        · simp [installDialog] at hmem
        · exact isInStep_not_dialog false _ (hd.dep_inStep _ hmem) ans rfl
        · exact hdlg _ hmem ans rfl
    rcases hrest with ⟨_, rfl⟩ | ⟨_, b2, d2, hs2, rfl⟩
    · exact key [] (by simpa using (steps_not_detect hbx hd (.inl ⟨rfl, by simp⟩
        : ProductShape false false [])).1) (by simp) (by simp)
    · refine key (Event.call Fn.RunEdkRepoInstaller :: d2) ?_ ?_ (by simp)
      · simpa [List.append_assoc] using (steps_not_detect hbx hd hs2).2
      · intro e he ans
        simp only [List.mem_cons] at he
        rcases he with rfl | he
        · simp [installDialog]
        · exact isInStep_not_dialog false e (hs2.inStep e he) ans
  · -- the dependency is present
    have hn1 : Event.call Fn.RunDotNetInstaller ∉ st ++ Event.call Fn.RunEdkRepoInstaller :: d2 := by
      intro hmem
      simp only [List.mem_append, List.mem_cons] at hmem
      rcases hmem with hmem | hmem | hmem
      · exact not_mem_of_class hst (by rfl) hmem
      · cases hmem
      · exact not_mem_of_class hs2.inStep (by rfl) hmem
    have hdp : dependencyPresent (st ++ Event.call Fn.RunEdkRepoInstaller :: d2) := by
      have := hpres.mp hp
      unfold dependencyPresent at this ⊢
      exact ⟨List.mem_append_left _ this.1, List.mem_append_left _ this.2⟩
    refine ⟨?_, fun _ => hn1, fun _ => hn1, ?_, fun _ h => absurd hdp h⟩
    · simp [hn1, hdp]
    · intro ans hans hmem
      exfalso
      simp only [List.mem_append, List.mem_cons] at hmem
      rcases hmem with hmem | hmem | hmem
      · exact hstbox _ hmem
      · simp [installDialog] at hmem
      · exact isInStep_not_dialog S _ (hs2.inStep _ hmem) ans rfl
/-! ## Order of the two steps -/

theorem mem_before_of_split {α : Type} {m x : α} :
    ∀ {a b pre post : List α}, a ++ m :: b = pre ++ x :: post → m ∉ pre → x ≠ m → x ∈ a := by
  intro a
  induction a with
  | nil =>
    intro b pre post h hm hx
    cases pre with
    | nil => simp only [List.nil_append, List.cons.injEq] at h; exact absurd h.1.symm hx
    | cons p pre =>
      simp only [List.nil_append, List.cons_append, List.cons.injEq] at h
      exact absurd (by rw [h.1]; exact List.mem_cons_self _ _) hm
  | cons y a ih =>
    intro b pre post h hm hx
    cases pre with
    | nil =>
      simp only [List.nil_append, List.cons_append, List.cons.injEq] at h
      rw [← h.1]; exact List.mem_cons_self _ _
    | cons p pre =>
      simp only [List.cons_append, List.cons.injEq] at h
      exact List.mem_cons_of_mem _
        (ih h.2 (fun hmem => hm (List.mem_cons_of_mem _ hmem)) hx)

theorem DepShape.code_decides {g p b : Bool} {d : History} (hs : DepShape g p b d)
    {c : Nat} (hmem : Event.GetExitCodeProcess (some c) ∈ d) : b = true ↔ c = 0 := by
  rcases hs with ⟨_, hq⟩ | ⟨d0, path, attrs, params, code, post, rfl, hP, hpost, hb, _⟩
  · exact absurd rfl (isQuietDep_not_exit g _ (hq _ hmem) c)
  · rw [hb]
    simp only [List.mem_append, List.mem_cons, List.mem_singleton, List.not_mem_nil,
      or_false, Event.GetExitCodeProcess.injEq, Option.some.injEq, reduceCtorEq,
      false_or] at hmem
    rcases hmem with (hmem | hmem) | hmem
    · exact absurd rfl (isPathQuery_not_exit _ (hP _ hmem) (some c))
    · rw [hmem]
    · exact absurd rfl (isPostRun_not_exit g _ (hpost _ hmem) (some c))

theorem isStartup_not_exit (e : Event) (he : e.isStartup = true) (c : Option Nat) :
    e ≠ Event.GetExitCodeProcess c := by
  cases e <;> simp_all [Event.isStartup]

/-- When the dependency installer returned a code other than 0, the process exits with
code 1 and never enters the product step. -/
theorem dependency_code_decides (os : OS) (argv : List String) (r : Run)
    (hrun : _tWinMain os argv = some r) (pre post : History) (c : Nat)
    (hsplit : r.trace = pre ++ Event.GetExitCodeProcess (some c) :: post)
    (h1 : Event.call Fn.RunDotNetInstaller ∈ pre)
    (h2 : Event.call Fn.RunEdkRepoInstaller ∉ pre) (hc : c ≠ 0) :
    r.exitCode = 1 ∧ Event.call Fn.RunEdkRepoInstaller ∉ r.trace := by
  obtain ⟨r2, st, present, hrun2, hst, _, hcases⟩ := _tWinMain_cases os argv
  rw [hrun] at hrun2
  obtain rfl : r = r2 := by simpa using hrun2
  have hM1 : Event.call Fn.RunDotNetInstaller ∈ r.trace := by rw [hsplit]; simp [h1]
  rcases hcases with ⟨_, _, w, rfl, hw⟩ | ⟨_, _, _, ans, _, rfl⟩
    | ⟨_, _, bx, b, d, hbx, hd, ⟨_, rfl⟩ | ⟨hb, b2, d2, hs2, rfl⟩⟩ | ⟨_, b2, d2, hs2, rfl⟩
  · exfalso
    rcases List.mem_append.mp hM1 with hmem | hmem
    · exact not_mem_of_class hst (by rfl) hmem
    · rcases hw with rfl | ⟨s, _, _, rfl⟩ <;> simp at hmem
  · exfalso
    rcases List.mem_append.mp hM1 with hmem | hmem
    · exact not_mem_of_class hst (by rfl) hmem
    · simp [installDialog] at hmem
  · exact ⟨rfl, marker_not_mem_before_product hst hbx hd⟩
  · exfalso
    have hmem := mem_before_of_split hsplit h2 (by simp)
    simp only [List.mem_append, List.mem_cons] at hmem
    rcases hmem with (hmem | hmem) | hmem | hmem
    · exact isStartup_not_exit _ (hst _ hmem) _ rfl
    · rcases hbx with ⟨_, rfl⟩ | ⟨_, rfl⟩
      · simp at hmem
      · simp [installDialog] at hmem
    · cases hmem
    · exact hc ((hd.code_decides hmem).mp hb)
  · exfalso
    simp only [List.mem_append, List.mem_cons] at hM1
    rcases hM1 with hmem | hmem | hmem
    · exact not_mem_of_class hst (by rfl) hmem
    · cases hmem
    · exact not_mem_of_class hs2.inStep (by rfl) hmem

/-- C6. The product step is entered only if the dependency predicate held at startup or
the dependency installer was launched before it and returned exit code 0.  When the
dependency installer returned another code (such as 1602, 1641, 3010), or the dependency
step ran without an exit code 0 at all, the process exits with code 1 and the product
step is never entered. -/
theorem product_only_after_dependency (os : OS) (argv : List String) :
    ∃ r, _tWinMain os argv = some r
      ∧ (∀ pre post, r.trace = pre ++ Event.call Fn.RunEdkRepoInstaller :: post →
          dependencyPresent r.trace
          ∨ (Event.call Fn.RunDotNetInstaller ∈ pre ∧ launched pre
              ∧ Event.GetExitCodeProcess (some 0) ∈ pre))
      ∧ (∀ pre post c, r.trace = pre ++ Event.GetExitCodeProcess (some c) :: post →
          Event.call Fn.RunDotNetInstaller ∈ pre →
          Event.call Fn.RunEdkRepoInstaller ∉ pre → c ≠ 0 →
          r.exitCode = 1 ∧ Event.call Fn.RunEdkRepoInstaller ∉ r.trace)
      ∧ (Event.call Fn.RunDotNetInstaller ∈ r.trace →
          Event.GetExitCodeProcess (some 0) ∉ r.trace →
          r.exitCode = 1 ∧ Event.call Fn.RunEdkRepoInstaller ∉ r.trace) := by
  obtain ⟨r, st, present, hrun, hst, hpres, hcases⟩ := _tWinMain_cases os argv
  refine ⟨r, hrun, ?_, fun pre post c hsplit h1 h2 hc =>
    dependency_code_decides os argv r hrun pre post c hsplit h1 h2 hc, ?_⟩
  · intro pre post hsplit
    have hM2 : Event.call Fn.RunEdkRepoInstaller ∈ r.trace := by rw [hsplit]; simp
    rcases hcases with ⟨_, _, w, rfl, hw⟩ | ⟨_, _, _, ans, _, rfl⟩
      | ⟨_, _, bx, b, d, hbx, hd, ⟨_, rfl⟩ | ⟨hb, b2, d2, hs2, rfl⟩⟩ | ⟨hp, b2, d2, hs2, rfl⟩
    · exfalso
      rcases List.mem_append.mp hM2 with hmem | hmem
      · exact not_mem_of_class hst (by rfl) hmem
      · rcases hw with rfl | ⟨s, _, _, rfl⟩ <;> simp at hmem
    · exfalso
      rcases List.mem_append.mp hM2 with hmem | hmem
      · exact not_mem_of_class hst (by rfl) hmem
      · simp [installDialog] at hmem
    · exact absurd hM2 (marker_not_mem_before_product hst hbx hd)
    · right
      have hd2 : Event.call Fn.RunEdkRepoInstaller ∉ d2 := not_mem_of_class hs2.inStep (by rfl)
      obtain ⟨rfl, _, _⟩ := (List.append_cons_inj_of_not_mem
        (marker_not_mem_before_product hst hbx hd) hd2).mp hsplit
      obtain ⟨path, params, hl⟩ := hd.launched_of_success hb
      exact ⟨by simp, ⟨path, params, by simp [hl]⟩, by simp [hd.dep_succeeds_iff.mp hb]⟩
    · left
      have := hpres.mp hp
      unfold dependencyPresent at this ⊢
      exact ⟨List.mem_append_left _ this.1, List.mem_append_left _ this.2⟩
  · intro hM1 hno
    rcases hcases with ⟨_, _, w, rfl, hw⟩ | ⟨_, _, _, ans, _, rfl⟩
      | ⟨_, _, bx, b, d, hbx, hd, ⟨_, rfl⟩ | ⟨hb, b2, d2, hs2, rfl⟩⟩ | ⟨hp, b2, d2, hs2, rfl⟩
    · exfalso
      rcases List.mem_append.mp hM1 with hmem | hmem
      · exact not_mem_of_class hst (by rfl) hmem
      · rcases hw with rfl | ⟨s, _, _, rfl⟩ <;> simp at hmem
    · exfalso
      rcases List.mem_append.mp hM1 with hmem | hmem
      · exact not_mem_of_class hst (by rfl) hmem
      · simp [installDialog] at hmem
    · exact ⟨rfl, marker_not_mem_before_product hst hbx hd⟩
    · exact absurd (by simp [hd.dep_succeeds_iff.mp hb]) hno
    · exfalso
      simp only [List.mem_append, List.mem_cons] at hM1
      rcases hM1 with hmem | hmem | hmem
      · exact not_mem_of_class hst (by rfl) hmem
      · cases hmem
      · exact not_mem_of_class hs2.inStep (by rfl) hmem

/-! ## Silent mode -/

/-- C8. In a run whose argv selects Silent mode no `MessageBox` is ever shown; with the
dependency absent and no console of the parent to attach to, the run exits with code 1,
shows no dialog and writes nothing. -/
theorem silent_mode_shows_no_dialog (os : OS) (argv : List String)
    (hsilent : (_tWinMain.scan argv false false).2 = true) :
    ∃ r, _tWinMain os argv = some r
      ∧ (∀ e ∈ r.trace, e.isMessageBox = false)
      ∧ (¬ dependencyPresent r.trace → Event.AttachConsole false ∈ r.trace →
          r.exitCode = 1
          ∧ ∀ e ∈ r.trace, e.isMessageBox = false ∧ e.isWriteConsole = false) := by
  obtain ⟨r, st, present, hrun, hst, hpres, hcases⟩ := _tWinMain_cases os argv
  refine ⟨r, hrun, ?_⟩
  rw [hsilent] at hcases
  rcases hcases with ⟨_, _, w, rfl, hw⟩ | ⟨hS, _⟩ | ⟨hS, _⟩ | ⟨hp, b2, d2, hs2, rfl⟩
  · constructor
    · intro e he
      rcases List.mem_append.mp he with he | he
      · exact (isStartup_not_box e (hst e he)).1
      · rcases hw with rfl | ⟨s, _, _, rfl⟩
        · simp at he
        · simp only [List.mem_singleton] at he; subst he; rfl
    · intro _ hno
      refine ⟨rfl, ?_⟩
      rcases hw with rfl | ⟨s, _, hatt, rfl⟩
      · intro e he
        rw [List.append_nil] at he
        exact ⟨(isStartup_not_box e (hst e he)).1, (isStartup_not_box e (hst e he)).2.1⟩
      · exfalso
        rcases List.mem_append.mp hno with hmem | hmem
        · exact hatt hmem
        · simp at hmem
  · exact absurd hS (by simp)
  · exact absurd hS (by simp)
  · have hall : ∀ e ∈ st ++ Event.call Fn.RunEdkRepoInstaller :: d2, e.isMessageBox = false := by
      intro e he
      simp only [List.mem_append, List.mem_cons] at he
      rcases he with he | rfl | he
      · exact (isStartup_not_box e (hst e he)).1
      · rfl
      · exact isInStep_silent_not_box e (hs2.inStep e he)
    refine ⟨hall, ?_⟩
    intro hnd
    exfalso
    apply hnd
    have := hpres.mp hp
    unfold dependencyPresent at this ⊢
    exact ⟨List.mem_append_left _ this.1, List.mem_append_left _ this.2⟩
/-! ## Exit codes of the dependency installer -/

theorem RunDotNetInstaller_split (os : OS) (g p : Bool) (h h2 pre post : History)
    (b : Bool) (c : Nat) (hrun : RunDotNetInstaller os g p h = some (b, h2))
    (hsplit : h2 = h ++ pre ++ Event.GetExitCodeProcess (some c) :: post) :
    (∀ e ∈ pre, e.isMessageBox = false) ∧ Event.call Fn.RebootSystem ∉ pre
      ∧ launched pre ∧ AfterRunFacts g p c b post := by
  obtain ⟨b2, d, hrun2, hs⟩ := RunDotNetInstaller_spec os g p h
  rw [hrun] at hrun2
  simp only [Option.some.injEq, Prod.mk.injEq] at hrun2
  obtain ⟨rfl, rfl⟩ := hrun2
  rw [List.append_assoc] at hsplit
  have heq := List.append_cancel_left hsplit
  rcases hs with ⟨_, hq⟩ | ⟨d0, path, attrs, params, code, post0, rfl, hP, hfacts⟩
  · exfalso
    have hmem : Event.GetExitCodeProcess (some c) ∈ Event.call Fn.RunDotNetInstaller :: d := by
      rw [heq]; simp
    simp only [List.mem_cons, reduceCtorEq, false_or] at hmem
    exact isQuietDep_not_exit g _ (hq _ hmem) c rfl
  · have heq2 : (Event.call Fn.RunDotNetInstaller :: d0
          ++ [Event.FindFirstFile path true, Event.GetFileAttributes path attrs,
            Event.ShellExecuteEx path params true])
        ++ Event.GetExitCodeProcess (some code) :: post0
        = pre ++ Event.GetExitCodeProcess (some c) :: post := by
      rw [← heq]; simp
    have hx : Event.GetExitCodeProcess (some c) ∉ Event.call Fn.RunDotNetInstaller :: d0
          ++ [Event.FindFirstFile path true, Event.GetFileAttributes path attrs,
            Event.ShellExecuteEx path params true] := by
      intro hmem
      simp only [List.cons_append, List.mem_cons, List.mem_append, reduceCtorEq, false_or,
        List.not_mem_nil, or_false] at hmem
      exact isPathQuery_not_exit _ (hP _ hmem) _ rfl
    have hz : Event.GetExitCodeProcess (some c) ∉ post0 := fun hmem =>
      isPostRun_not_exit g _ (hfacts.1 _ hmem) _ rfl
    obtain ⟨rfl, hcode, rfl⟩ := (List.append_cons_inj_of_not_mem hx hz).mp heq2
    simp only [Event.GetExitCodeProcess.injEq, Option.some.injEq] at hcode
    subst hcode
    refine ⟨?_, ?_, ⟨path, params, by simp⟩, hfacts⟩
    · intro e he
      simp only [List.cons_append, List.mem_cons, List.mem_append, List.not_mem_nil,
        or_false] at he
      rcases he with rfl | he | rfl | rfl | rfl
      · rfl
      · have := hP e he
        cases e <;> simp_all [Event.isPathQuery, Event.isMessageBox]
      all_goals rfl
    · intro hmem
      simp only [List.cons_append, List.mem_cons, List.mem_append, reduceCtorEq, false_or,
        List.not_mem_nil, or_false] at hmem
      rcases hmem with hmem | hmem
      · cases hmem
      · have := hP _ hmem
        simp [Event.isPathQuery] at this

/-- C4. Once the dependency installer has been launched by `RunDotNetInstaller` and has
returned the code `c`, the outcome is the one the table of the specification gives for
`c`, whatever `PassiveMode` is: 0 makes the step return TRUE with nothing shown, 1641 and
3010 start the reboot handling, 1602 shows nothing, every other code shows the
"installation failed" dialog and nothing else; every outcome but Success makes the step
return FALSE. -/
theorem dependency_exit_code_classification (os : OS) (g_SilentMode PassiveMode : Bool)
    (h h2 pre post : History) (b : Bool) (c : Nat)
    (hrun : RunDotNetInstaller os g_SilentMode PassiveMode h = some (b, h2))
    (hsplit : h2 = h ++ pre ++ Event.GetExitCodeProcess (some c) :: post) :
    OutcomeObserved (classifyDependencyExit c) b post
    ∧ (b = true ↔ classifyDependencyExit c = ExitOutcome.Success) := by
  obtain ⟨_, _, _, _, hb, h0, hreboot, h1602, hother⟩ :=
    RunDotNetInstaller_split os g_SilentMode PassiveMode h h2 pre post b c hrun hsplit
  unfold classifyDependencyExit
  by_cases hc0 : c = 0
  · simp only [hc0, if_true, OutcomeObserved, iff_true, and_true]
    exact ⟨⟨hb.mpr hc0, h0 hc0⟩, hb.mpr hc0⟩
  · have hbf : b = false := by
      cases b
      · rfl
      · exact absurd (hb.mp rfl) hc0
    simp only [hc0, if_false]
    by_cases hr : c = 1641 ∨ c = 3010
    · simp only [hr, if_true, OutcomeObserved, reduceCtorEq, iff_false, hbf,
        Bool.false_eq_true, not_false_eq_true, and_true, true_and]
      cases PassiveMode
      · obtain ⟨ans, rest, hpost, _⟩ := (hreboot hr).2 rfl
        exact Or.inr ⟨ans, rest, hpost⟩
      · obtain ⟨rest, hpost⟩ := (hreboot hr).1 rfl
        exact Or.inl ⟨rest, hpost⟩
    · simp only [hr, if_false]
      by_cases hc : c = 1602
      · simp only [hc, if_true, OutcomeObserved, reduceCtorEq, iff_false, hbf,
          Bool.false_eq_true, not_false_eq_true, and_true, true_and]
        exact h1602 hc
      · simp only [hc, if_false, OutcomeObserved, reduceCtorEq, iff_false, hbf,
          Bool.false_eq_true, not_false_eq_true, and_true, true_and]
        exact hother hc0 (fun h => hr (Or.inl h)) (fun h => hr (Or.inr h)) hc

/-- C4, at concrete runs: with exit code 1602 the step returns FALSE and nothing follows
the reading of the exit code, in Passive as in Interactive mode. -/
theorem dependency_exit_code_classification_witness :
    RunDotNetInstaller (osAbsent 1602 IDYES) false true []
      = some (false, [] ++ dependencyLaunch "/norestart /passive"
          ++ Event.GetExitCodeProcess (some 1602) :: [])
    ∧ RunDotNetInstaller (osAbsent 1602 IDYES) false false []
      = some (false, [] ++ dependencyLaunch "/norestart /passive /showrmui"
          ++ Event.GetExitCodeProcess (some 1602) :: [])
    ∧ classifyDependencyExit 1602 = ExitOutcome.UserCancelled
    ∧ OutcomeObserved (classifyDependencyExit 1602) false []
    ∧ (false = true ↔ classifyDependencyExit 1602 = ExitOutcome.Success) :=
  ⟨by decide, by decide, by decide,
    (dependency_exit_code_classification (osAbsent 1602 IDYES) false true []
      _ (dependencyLaunch "/norestart /passive") [] false 1602 (by decide) rfl).1,
    (dependency_exit_code_classification (osAbsent 1602 IDYES) false false []
      _ (dependencyLaunch "/norestart /passive /showrmui") [] false 1602 (by decide) rfl).2⟩

/-- C7. When the dependency installer returned 1641 or 3010, `RunDotNetInstaller` returns
FALSE and no dialog was shown and no reboot attempted before the code was read.  In
Passive mode the entry of `RebootSystem` is the very next event.  Otherwise the next
event is the Yes/No "reboot now?" dialog, and `RebootSystem` is entered after it exactly
when the answer is Yes; after another answer only a dialog follows.  A run of `_tWinMain` in which the dependency installer returned
such a code exits with code 1. -/
theorem reboot_required_handling (os : OS) (g_SilentMode PassiveMode : Bool)
    (h h2 pre post : History) (b : Bool) (c : Nat)
    (hrun : RunDotNetInstaller os g_SilentMode PassiveMode h = some (b, h2))
    (hsplit : h2 = h ++ pre ++ Event.GetExitCodeProcess (some c) :: post)
    (hc : c = 1641 ∨ c = 3010) :
    b = false
    ∧ (∀ e ∈ pre, e.isMessageBox = false) ∧ Event.call Fn.RebootSystem ∉ pre
    ∧ (PassiveMode = true → ∃ rest, post = Event.call Fn.RebootSystem :: rest)
    ∧ (PassiveMode = false → ∃ ans rest,
        post = Event.MessageBox rebootPrompt "Reboot Required"
          (MB_YESNO ||| MB_ICONQUESTION) ans :: rest
        ∧ (Event.call Fn.RebootSystem ∈ rest ↔ ans = IDYES)
        ∧ (ans ≠ IDYES → ∀ e ∈ rest, e.isMessageBox = true))
    ∧ (∀ (argv : List String) (r : Run) (before after : History),
        _tWinMain os argv = some r →
        r.trace = before ++ Event.GetExitCodeProcess (some c) :: after →
        Event.call Fn.RunDotNetInstaller ∈ before →
        Event.call Fn.RunEdkRepoInstaller ∉ before →
        r.exitCode = 1) := by
  obtain ⟨hbox, hnr, _, _, hb, _, hreboot, _, _⟩ :=
    RunDotNetInstaller_split os g_SilentMode PassiveMode h h2 pre post b c hrun hsplit
  have hc0 : c ≠ 0 := by omega
  refine ⟨?_, hbox, hnr, (hreboot hc).1, (hreboot hc).2, ?_⟩
  · cases b
    · rfl
    · exact absurd (hb.mp rfl) hc0
  · intro argv r before after hmain htrace h1 h2
    exact (dependency_code_decides os argv r hmain before after c htrace h1 h2 hc0).1

/-- C7, at concrete runs: exit code 3010.  In Passive mode the reboot follows at once; in
Interactive mode with the answer No (7) two dialogs follow and no reboot. -/
theorem reboot_required_handling_witness :
    RunDotNetInstaller (osAbsent 3010 IDYES) false true []
      = some (false, [] ++ dependencyLaunch "/norestart /passive"
          ++ Event.GetExitCodeProcess (some 3010) :: rebootDone)
    ∧ (∃ rest, rebootDone = Event.call Fn.RebootSystem :: rest)
    ∧ RunDotNetInstaller (osAbsent 3010 7) false false []
      = some (false, [] ++ dependencyLaunch "/norestart /passive /showrmui"
          ++ Event.GetExitCodeProcess (some 3010) :: rebootDeclined)
    ∧ (∃ ans rest, rebootDeclined = Event.MessageBox rebootPrompt "Reboot Required"
          (MB_YESNO ||| MB_ICONQUESTION) ans :: rest
        ∧ (Event.call Fn.RebootSystem ∈ rest ↔ ans = IDYES)
        ∧ (ans ≠ IDYES → ∀ e ∈ rest, e.isMessageBox = true)) :=
  ⟨by decide,
    (reboot_required_handling (osAbsent 3010 IDYES) false true [] _
      (dependencyLaunch "/norestart /passive") rebootDone false 3010 (by decide) rfl
      (Or.inr rfl)).2.2.2.1 rfl,
    by decide,
    (reboot_required_handling (osAbsent 3010 7) false false [] _
      (dependencyLaunch "/norestart /passive /showrmui") rebootDeclined false 3010
      (by decide) rfl (Or.inr rfl)).2.2.2.2.1 rfl⟩

/-! ## Text written in Silent mode -/

/-- C9, the code evaluated where it departs from the claim.  Silent mode, dependency
absent, console attached: the 64-bit build writes the 4 characters `.NET`, the 32-bit
build the 2 characters `.N`, in both cases without a line end, and not the whole message
followed by CR LF.  On the 64-bit build `DisplayErrorMessage` writes its message and
then 4 characters: CR, LF, the terminator and the character after it. -/
theorem silent_error_text_is_cut :
    _tWinMain (osAbsent 0 IDYES) ["SetupLauncher.exe", "/silent"]
      = some ⟨1, [Event.AttachConsole true, Event.GetStdHandle 44,
          Event.IsNetfx452Installed true, Event.CheckNetfxVersionUsingMscoree false,
          Event.WriteConsole 44 ".NET".data]⟩
    ∧ _tWinMain osAbsent32 ["SetupLauncher.exe", "/silent"]
      = some ⟨1, [Event.AttachConsole true, Event.GetStdHandle 44,
          Event.IsNetfx452Installed true, Event.CheckNetfxVersionUsingMscoree false,
          Event.WriteConsole 44 ".N".data]⟩
    ∧ ".NET".data ≠ SilentDotNetInstallError.data ++ [Char.ofNat 13, Char.ofNat 10]
    ∧ SilentDotNetInstallError.length = 92
    ∧ DisplayErrorMessage (osAbsent 0 IDYES) true [] "Failed to get directory"
      = [Event.GetStdHandle 44, Event.WriteConsole 44 "Failed to get directory".data,
          Event.WriteConsole 44 [Char.ofNat 13, Char.ofNat 10, Char.ofNat 0, Char.ofNat 0]] := by
  decide

theorem readTChars_length_le (os : OS) (s : String) (n : Nat) :
    (readTChars os s n).length ≤ n := by
  unfold readTChars
  exact List.length_take_le _ _

/-- In every Silent run with the dependency absent, on either platform and whatever the
environment answers, a console write holds at most 4 characters: never the 92
characters of the message and a line end. -/
theorem silent_error_write_is_short (os : OS) (argv : List String)
    (hsilent : (_tWinMain.scan argv false false).2 = true) :
    ∃ r, _tWinMain os argv = some r
      ∧ (¬ dependencyPresent r.trace → ∀ s chars, Event.WriteConsole s chars ∈ r.trace →
          chars.length ≤ 4
          ∧ chars ≠ SilentDotNetInstallError.data ++ [Char.ofNat 13, Char.ofNat 10]) := by
  obtain ⟨r, st, present, hrun, hst, hpres, hcases⟩ := _tWinMain_cases os argv
  refine ⟨r, hrun, ?_⟩
  rw [hsilent] at hcases
  have hlen : ∀ chars : List Char, chars.length ≤ 4 →
      chars ≠ SilentDotNetInstallError.data ++ [Char.ofNat 13, Char.ofNat 10] := by
    intro chars hle heq
    rw [heq] at hle
    exact absurd hle (by decide)
  rcases hcases with ⟨_, _, w, rfl, hw⟩ | ⟨hS, _⟩ | ⟨hS, _⟩ | ⟨hp, b2, d2, hs2, rfl⟩
  · intro _ s chars hmem
    rcases List.mem_append.mp hmem with hmem | hmem
    · have := (isStartup_not_box _ (hst _ hmem)).2.1
      simp [Event.isWriteConsole] at this
    · rcases hw with rfl | ⟨s2, _, _, rfl⟩
      · simp at hmem
      · simp only [List.mem_singleton, Event.WriteConsole.injEq] at hmem
        have hle : chars.length ≤ 4 := by
          rw [hmem.2]
          refine le_trans (readTChars_length_le _ _ _) ?_
          cases os.platform <;> decide
        exact ⟨hle, hlen chars hle⟩
  · exact absurd hS (by simp)
  · exact absurd hS (by simp)
  · intro hnd
    exfalso
    apply hnd
    have := hpres.mp hp
    unfold dependencyPresent at this ⊢
    exact ⟨List.mem_append_left _ this.1, List.mem_append_left _ this.2⟩

/-! ## Concrete runs -/

/-- C8, at a concrete run: `/silent`, dependency absent, no console to attach to. -/
theorem silent_mode_shows_no_dialog_witness :
    (_tWinMain.scan ["SetupLauncher.exe", "/silent"] false false).2 = true
    ∧ _tWinMain osNoConsole ["SetupLauncher.exe", "/silent"]
      = some ⟨1, [Event.AttachConsole false, Event.IsNetfx452Installed true,
          Event.CheckNetfxVersionUsingMscoree false]⟩
    ∧ ∃ r, _tWinMain osNoConsole ["SetupLauncher.exe", "/silent"] = some r
      ∧ (∀ e ∈ r.trace, e.isMessageBox = false)
      ∧ (¬ dependencyPresent r.trace → Event.AttachConsole false ∈ r.trace →
          r.exitCode = 1
          ∧ ∀ e ∈ r.trace, e.isMessageBox = false ∧ e.isWriteConsole = false) :=
  ⟨by decide, by decide,
    silent_mode_shows_no_dialog osNoConsole ["SetupLauncher.exe", "/silent"] (by decide)⟩

/-- C10, at a concrete environment where the path never fits: 33 iterations are enough,
32 are not, and the loop gives up with `NULL` after 32 allocations. -/
theorem GetModulePath_terminates_witness :
    GetModulePath.loop osNeverFits false 32 [] none (MAX_PATH + 1) (dword (MAX_PATH + 1))
      = none
    ∧ (GetModulePath.loop osNeverFits false 33 [] none (MAX_PATH + 1)
        (dword (MAX_PATH + 1))).map (fun x => (x.1, (allocations x.2).length))
      = some (none, 32)
    ∧ ∃ res d k,
      GetModulePath.loop osNeverFits false 33 [] none (MAX_PATH + 1) (dword (MAX_PATH + 1))
        = some (res, [] ++ d)
      ∧ k ≤ 32
      ∧ allocations d = (List.range k).map (fun j => sizeofTCHAR * capacityAt j)
      ∧ capacityAt 0 = 261 ∧ 0x6400000 ≤ capacityAt 32
      ∧ (∀ j, j < k → capacityAt (j + 1) = 15 * capacityAt j / 10
          ∧ capacityAt j < capacityAt (j + 1)
          ∧ capacityAt j < 0x6400000
          ∧ 15 * capacityAt j < 2 ^ 32)
      ∧ (∀ b, res = some b →
          ∃ pre n, d = pre ++ [Event.GetModuleFileName b.capacity n b.text]
            ∧ 0 < n ∧ n < b.capacity) :=
  ⟨by decide, by decide, GetModulePath_terminates osNeverFits false [] 33 (by decide)⟩

/-- Concrete runs with the dependency absent and `/passive`.  When the dependency
installer returns 0 the product installer runs and the process exits with 0; when it
returns 3010 a reboot is attempted and the process exits with 1. -/
theorem passive_runs :
    (_tWinMain (osAbsent 0 IDYES) ["SetupLauncher.exe", "/passive"]).map (fun r => r.exitCode)
      = some 0
    ∧ _tWinMain (osAbsent 3010 IDYES) ["SetupLauncher.exe", "/passive"]
      = some ⟨1, ([Event.IsNetfx452Installed true, Event.CheckNetfxVersionUsingMscoree false]
          ++ dependencyLaunch "/norestart /passive")
          ++ Event.GetExitCodeProcess (some 3010) :: rebootDone⟩ :=
  ⟨by decide, by decide⟩

/-- A concrete Interactive run: the user answers No (7) to "Install now?". -/
theorem declined_run :
    _tWinMain (osAbsent 0 7) ["SetupLauncher.exe"]
      = some ⟨1, [Event.IsNetfx452Installed true, Event.CheckNetfxVersionUsingMscoree false,
          installDialog 7]⟩ := by
  decide

/-- C1, at a concrete run: everything works, the exit code is 0 and the product step shows
the file found, the launch and exit code 0. -/
theorem exit_code_zero_iff_product_succeeded_witness :
    ∃ r, _tWinMain osAllGood ["SetupLauncher.exe"] = some r ∧ r.exitCode = 0
      ∧ ∃ pre post, r.trace = pre ++ Event.call Fn.RunEdkRepoInstaller :: post
        ∧ foundFile post ∧ launched post
        ∧ Event.GetExitCodeProcess (some 0) ∈ post := by
  obtain ⟨r, hr, _, hiff⟩ := exit_code_zero_iff_product_succeeded osAllGood ["SetupLauncher.exe"]
  have heval : (_tWinMain osAllGood ["SetupLauncher.exe"]).map (fun r => r.exitCode)
      = some 0 := by decide
  rw [hr] at heval
  have h0 : r.exitCode = 0 := by simpa using heval
  exact ⟨r, hr, h0, hiff.mp h0⟩

/-- C5, at a concrete run: after the user declined, exit code 1 and no installer. -/
theorem dependency_step_invoked_iff_witness :
    ∃ r, _tWinMain (osAbsent 0 7) ["SetupLauncher.exe"] = some r
      ∧ installDialog 7 ∈ r.trace
      ∧ r.exitCode = 1 ∧ Event.call Fn.RunDotNetInstaller ∉ r.trace
      ∧ Event.call Fn.RunEdkRepoInstaller ∉ r.trace
      ∧ ∀ e ∈ r.trace, e.isShellExecuteEx = false := by
  obtain ⟨r, hr, _, _, _, hdeclined, _⟩ :=
    dependency_step_invoked_iff (osAbsent 0 7) ["SetupLauncher.exe"]
  have heval := declined_run
  rw [hr] at heval
  have hmem : installDialog 7 ∈ r.trace := by
    simp only [Option.some.injEq] at heval
    rw [heval]; simp
  exact ⟨r, hr, hmem, hdeclined 7 (by decide) hmem⟩

/-- C6, at a concrete run: the dependency installer returns 3010 in Passive mode; the
process exits with code 1 and the product step is never entered. -/
theorem product_only_after_dependency_witness :
    ∃ r, _tWinMain (osAbsent 3010 IDYES) ["SetupLauncher.exe", "/passive"] = some r
      ∧ Event.call Fn.RebootSystem ∈ r.trace
      ∧ r.exitCode = 1 ∧ Event.call Fn.RunEdkRepoInstaller ∉ r.trace := by
  obtain ⟨r, hr, _, hcode, _⟩ :=
    product_only_after_dependency (osAbsent 3010 IDYES) ["SetupLauncher.exe", "/passive"]
  have heval := passive_runs.2
  rw [hr] at heval
  simp only [Option.some.injEq] at heval
  have htrace : r.trace = ([Event.IsNetfx452Installed true,
      Event.CheckNetfxVersionUsingMscoree false] ++ dependencyLaunch "/norestart /passive")
      ++ Event.GetExitCodeProcess (some 3010) :: rebootDone := by rw [heval]
  have hreboot : Event.call Fn.RebootSystem ∈ r.trace := by
    rw [htrace]; simp [rebootDone]
  exact ⟨r, hr, hreboot, hcode _ _ 3010 htrace (by decide) (by decide) (by decide)⟩
end SetupLauncher
